import Mathlib

set_option maxRecDepth 8000

/-
Verification development for the trophy software rasterizer
(pkg/math3d, pkg/render: camera, frustum, framebuffer, texture, rasterizer).

Numeric model: Go float64 values are modelled by the type F below, an exact
idealization of IEEE-754 doubles: finite values are exact rationals (no
rounding and no overflow), while the special values +Inf, -Inf and NaN are
represented explicitly and propagate through arithmetic and comparisons by
the IEEE rules (1/0 = +Inf, 0 * Inf = NaN, every comparison with NaN is
false, math.Max/math.Min return NaN when an argument is NaN, ...).  The
negative zero of IEEE is identified with zero; no code path analysed here
distinguishes them.  Go's float-to-int conversion is implementation-defined
outside the representable range; goInt/goUint8 below document the arbitrary
value chosen there, and no theorem depends on it.
-/

/-! ### Kernel-computable rational arithmetic

Lean's own `Rat` arithmetic is opaque to the kernel, so concrete witnesses
could not be checked by `decide` through it.  The model therefore rebuilds
the rational operations on `Rat.mk'` with a structural gcd; each operation
comes with a lemma identifying it with the Mathlib operation, so proofs can
still use ordinary rational algebra. -/

theorem qden_nz (n : Int) (d : Nat) (hd : d ≠ 0) : d / n.natAbs.gcd d ≠ 0 :=
  Nat.ne_of_gt (Nat.div_pos (Nat.le_of_dvd (Nat.pos_of_ne_zero hd)
    (Nat.gcd_dvd_right _ _)) (Nat.gcd_pos_of_pos_right _ (Nat.pos_of_ne_zero hd)))

theorem qred (n : Int) (d : Nat) (hd : d ≠ 0) :
    (n.natAbs / n.natAbs.gcd d).Coprime (d / n.natAbs.gcd d) :=
  Nat.coprime_div_gcd_div_gcd (Nat.gcd_pos_of_pos_right _ (Nat.pos_of_ne_zero hd))

/-- Reduced rational `n / d` over a natural denominator, built so that the
kernel can evaluate it (Lean's own `Rat` arithmetic is opaque to the
kernel). -/
def qraw (n : Int) (d : Nat) : ℚ :=
  if hd : d = 0 then 0
  else if 0 ≤ n then
    Rat.mk' ((n.natAbs / n.natAbs.gcd d : ℕ) : ℤ) (d / n.natAbs.gcd d)
      (qden_nz n d hd) (by rw [Int.natAbs_ofNat]; exact qred n d hd)
  else
    Rat.mk' (-((n.natAbs / n.natAbs.gcd d : ℕ) : ℤ)) (d / n.natAbs.gcd d)
      (qden_nz n d hd) (by rw [Int.natAbs_neg, Int.natAbs_ofNat]; exact qred n d hd)

theorem qraw_eq (n : Int) (d : Nat) (hd : d ≠ 0) : qraw n d = (n : ℚ) / (d : ℚ) := by
  unfold qraw
  rw [dif_neg hd]
  have hg : 0 < n.natAbs.gcd d := Nat.gcd_pos_of_pos_right _ (Nat.pos_of_ne_zero hd)
  have hgn : n.natAbs.gcd d ∣ n.natAbs := Nat.gcd_dvd_left _ _
  have hgd : n.natAbs.gcd d ∣ d := Nat.gcd_dvd_right _ _
  have hgQ : ((n.natAbs.gcd d : ℕ) : ℚ) ≠ 0 := by
    exact_mod_cast Nat.pos_iff_ne_zero.mp hg
  have hdQ : ((d : ℕ) : ℚ) ≠ 0 := by exact_mod_cast hd
  have key : ((n.natAbs / n.natAbs.gcd d : ℕ) : ℚ) / ((d / n.natAbs.gcd d : ℕ) : ℚ)
      = (n.natAbs : ℚ) / (d : ℚ) := by
    rw [Nat.cast_div hgn hgQ, Nat.cast_div hgd hgQ]
    field_simp
  by_cases hn : 0 ≤ n
  · rw [if_pos hn, Rat.mk'_eq_divInt, Rat.divInt_eq_div]
    simp only [Int.cast_natCast]
    rw [key]
    have h2 : ((n.natAbs : ℕ) : ℚ) = (n : ℚ) := by
      calc ((n.natAbs : ℕ) : ℚ) = (((n.natAbs : ℕ) : ℤ) : ℚ) := (Int.cast_natCast _).symm
        _ = (n : ℚ) := by rw [Int.natAbs_of_nonneg hn]
    rw [h2]
  · rw [if_neg hn, Rat.mk'_eq_divInt, Rat.divInt_eq_div]
    simp only [Int.cast_neg, Int.cast_natCast]
    rw [neg_div, key]
    have h2 : ((n.natAbs : ℕ) : ℚ) = -(n : ℚ) := by
      calc ((n.natAbs : ℕ) : ℚ) = (((n.natAbs : ℕ) : ℤ) : ℚ) := (Int.cast_natCast _).symm
        _ = ((-n : ℤ) : ℚ) := by rw [Int.ofNat_natAbs_of_nonpos (le_of_not_le hn)]
        _ = -(n : ℚ) := by push_cast; ring
    rw [h2]
    ring

/-- Reduced rational `n / d` over an integer denominator. -/
def qmk (n d : Int) : ℚ :=
  if d < 0 then qraw (-n) d.natAbs else qraw n d.natAbs

theorem qmk_eq (n d : Int) (hd : d ≠ 0) : qmk n d = (n : ℚ) / (d : ℚ) := by
  unfold qmk
  have hna : d.natAbs ≠ 0 := Int.natAbs_ne_zero.mpr hd
  by_cases h : d < 0
  · rw [if_pos h, qraw_eq _ _ hna]
    have : ((d.natAbs : ℕ) : ℚ) = -(d : ℚ) := by
      calc ((d.natAbs : ℕ) : ℚ) = (((d.natAbs : ℕ) : ℤ) : ℚ) := (Int.cast_natCast _).symm
        _ = ((-d : ℤ) : ℚ) := by rw [Int.ofNat_natAbs_of_nonpos h.le]
        _ = -(d : ℚ) := by push_cast; ring
    rw [this]
    push_cast
    rw [neg_div_neg_eq]
  · rw [if_neg h, qraw_eq _ _ hna]
    have : ((d.natAbs : ℕ) : ℚ) = (d : ℚ) := by
      calc ((d.natAbs : ℕ) : ℚ) = (((d.natAbs : ℕ) : ℤ) : ℚ) := (Int.cast_natCast _).symm
        _ = (d : ℚ) := by rw [Int.natAbs_of_nonneg (le_of_not_lt h)]
    rw [this]

/-- Kernel-computable rational addition. -/
def qadd (a b : ℚ) : ℚ := qmk (a.num * b.den + b.num * a.den) ((a.den : ℤ) * b.den)

/-- Kernel-computable rational negation. -/
def qneg (a : ℚ) : ℚ := qmk (-a.num) a.den

/-- Kernel-computable rational multiplication. -/
def qmul (a b : ℚ) : ℚ := qmk (a.num * b.num) ((a.den : ℤ) * b.den)

/-- Kernel-computable rational division (zero when the divisor is zero). -/
def qdiv (a b : ℚ) : ℚ := qmk (a.num * b.den) ((a.den : ℤ) * b.num)

/-- Kernel-computable `<` on rationals. -/
def qltb (a b : ℚ) : Bool := decide (a.num * b.den < b.num * a.den)

/-- Kernel-computable `<=` on rationals. -/
def qleb (a b : ℚ) : Bool := decide (a.num * b.den ≤ b.num * a.den)

/-- Kernel-computable floor. -/
def qfloor (a : ℚ) : Int := a.num / (a.den : Int)

/-- Kernel-computable ceiling. -/
def qceil (a : ℚ) : Int := -((-a.num) / (a.den : Int))

theorem qden_pos (a : ℚ) : (0 : ℤ) < a.den := Int.natCast_pos.mpr a.pos

theorem qden_nzQ (a : ℚ) : ((a.den : ℤ) : ℚ) ≠ 0 := by
  have := qden_pos a
  exact_mod_cast this.ne'

theorem qnum_den (a : ℚ) : (a : ℚ) = ((a.num : ℚ)) / ((a.den : ℤ) : ℚ) := by
  rw [Int.cast_natCast]
  exact (Rat.num_div_den a).symm

theorem qadd_eq (a b : ℚ) : qadd a b = a + b := by
  unfold qadd
  rw [qmk_eq _ _ (by positivity)]
  conv_rhs => rw [qnum_den a, qnum_den b]
  have ha := qden_nzQ a
  have hb := qden_nzQ b
  field_simp

theorem qneg_eq (a : ℚ) : qneg a = -a := by
  unfold qneg
  rw [qmk_eq _ _ (qden_pos a).ne']
  conv_rhs => rw [qnum_den a]
  push_cast
  ring

theorem qmul_eq (a b : ℚ) : qmul a b = a * b := by
  unfold qmul
  rw [qmk_eq _ _ (by positivity)]
  conv_rhs => rw [qnum_den a, qnum_den b]
  have ha := qden_nzQ a
  have hb := qden_nzQ b
  field_simp

theorem qdiv_eq (a b : ℚ) (hb : b ≠ 0) : qdiv a b = a / b := by
  unfold qdiv
  have hbn : b.num ≠ 0 := Rat.num_ne_zero.mpr hb
  have hbnQ : ((b.num : ℤ) : ℚ) ≠ 0 := by exact_mod_cast hbn
  rw [qmk_eq _ _ (by
    have := (qden_pos a).ne'
    exact mul_ne_zero this hbn)]
  conv_rhs => rw [qnum_den a, qnum_den b]
  have ha := qden_nzQ a
  have hb' := qden_nzQ b
  field_simp

theorem qltb_eq (a b : ℚ) : qltb a b = decide (a < b) := by
  unfold qltb
  exact decide_eq_decide.mpr Rat.lt_def.symm

theorem qleb_eq (a b : ℚ) : qleb a b = decide (a ≤ b) := by
  unfold qleb
  exact decide_eq_decide.mpr Rat.le_def.symm

theorem qfloor_eq (a : ℚ) : qfloor a = ⌊a⌋ := by
  rw [Rat.floor_def]
  rfl

theorem qceil_eq (a : ℚ) : qceil a = ⌈a⌉ := by
  have h : (⌈a⌉ : ℤ) = -⌊-a⌋ := by rw [Int.floor_neg, neg_neg]
  rw [h, Rat.floor_def, Rat.neg_num, Rat.neg_den]
  rfl


/-- Idealized IEEE double: NaN, signed infinity (`inf true` is +Inf), or an
exact finite rational. -/
inductive F where
  | nan : F
  | inf : Bool → F
  | fin : ℚ → F
deriving DecidableEq, Repr

namespace F

/-- IEEE addition on idealized doubles (finite part exact). -/
def add : F → F → F
  | nan, _ => nan
  | _, nan => nan
  | inf s, inf t => if s = t then inf s else nan
  | inf s, fin _ => inf s
  | fin _, inf t => inf t
  | fin a, fin b => fin (qadd a b)

/-- IEEE negation. -/
def neg : F → F
  | nan => nan
  | inf s => inf (!s)
  | fin a => fin (qneg a)

/-- IEEE subtraction. -/
def sub (a b : F) : F := add a (neg b)

/-- Sign (as `true` = nonnegative) of a finite rational, used for the sign
of infinite products and quotients. -/
def qpos (q : ℚ) : Bool := decide (0 < q.num)

/-- IEEE multiplication; `0 * Inf = NaN`. -/
def mul : F → F → F
  | nan, _ => nan
  | _, nan => nan
  | inf s, inf t => inf (s == t)
  | inf s, fin q => if q = 0 then nan else inf (s == qpos q)
  | fin q, inf t => if q = 0 then nan else inf (t == qpos q)
  | fin a, fin b => fin (qmul a b)

/-- IEEE division; `x/0 = ±Inf` for finite nonzero x, `0/0 = NaN`,
`x/Inf = 0`, `Inf/Inf = NaN`. -/
def div : F → F → F
  | nan, _ => nan
  | _, nan => nan
  | inf _, inf _ => nan
  | inf s, fin q => if q = 0 then inf s else inf (s == qpos q)
  | fin _, inf _ => fin 0
  | fin a, fin b => if b = 0 then (if a = 0 then nan else inf (qpos a)) else fin (qdiv a b)

instance : Add F := ⟨add⟩
instance : Neg F := ⟨neg⟩
instance : Sub F := ⟨sub⟩
instance : Mul F := ⟨mul⟩
instance : Div F := ⟨div⟩

/-- Go `<` on float64: false whenever an operand is NaN. -/
def ltb : F → F → Bool
  | nan, _ => false
  | _, nan => false
  | inf s, inf t => !s && t
  | inf s, fin _ => !s
  | fin _, inf t => t
  | fin a, fin b => qltb a b

/-- Go `<=` on float64: false whenever an operand is NaN. -/
def leb : F → F → Bool
  | nan, _ => false
  | _, nan => false
  | inf s, inf t => !s || t
  | inf s, fin _ => !s
  | fin _, inf t => t
  | fin a, fin b => qleb a b

/-- Go `>=` on float64 (`a >= b` iff `b <= a`; false with NaN). -/
def geb (a b : F) : Bool := leb b a

/-- Go `>` on float64. -/
def gtb (a b : F) : Bool := ltb b a

/-- Go `==` on float64: NaN is not equal to anything. -/
def beq : F → F → Bool
  | nan, _ => false
  | _, nan => false
  | inf s, inf t => s == t
  | inf _, fin _ => false
  | fin _, inf _ => false
  | fin a, fin b => decide (a = b)

/-- Go `math.Max`: NaN if either argument is NaN, otherwise the larger. -/
def fmax (a b : F) : F :=
  match a, b with
  | nan, _ => nan
  | _, nan => nan
  | x, y => if ltb x y then y else x

/-- Go `math.Min`: NaN if either argument is NaN, otherwise the smaller. -/
def fmin (a b : F) : F :=
  match a, b with
  | nan, _ => nan
  | _, nan => nan
  | x, y => if ltb y x then y else x

/-- Go `math.Floor` (NaN and infinities map to themselves). -/
def ffloor : F → F
  | nan => nan
  | inf s => inf s
  | fin a => fin ((qfloor a : ℤ) : ℚ)

/-- Go `math.Ceil` (NaN and infinities map to themselves). -/
def fceil : F → F
  | nan => nan
  | inf s => inf s
  | fin a => fin ((qceil a : ℤ) : ℚ)

/-- `true` iff the value is a finite rational. -/
def isFin : F → Bool
  | fin _ => true
  | _ => false

end F

/-- Go `int(f)` conversion: truncation toward zero for finite values.  For
NaN and infinities the Go result is implementation-defined; the model
returns 0 there and no theorem depends on that choice. -/
def goInt : F → Int
  | F.fin a => a.num.tdiv a.den
  | _ => 0

/-- Go `uint8(f)` conversion: truncation for finite values in [0, 256).
Outside that range (including NaN/Inf) the Go result is
implementation-defined; the model returns 0 there and no theorem depends on
that choice. -/
def goUint8 : F → Nat
  | F.fin a => if qleb 0 a && qltb a 256 then (qfloor a).toNat else 0
  | _ => 0

/-- Shorthand for embedding a rational as a finite double. -/
def fq (q : ℚ) : F := F.fin q

/-- A fractional double literal `n/d`, in kernel-computable form (decimal
literals of the Go source such as 0.5 are exact in the model). -/
def fr (n d : Int) : F := F.fin (qmk n d)

theorem fr_eq (n d : Int) (hd : d ≠ 0) : fr n d = F.fin ((n : ℚ) / (d : ℚ)) := by
  unfold fr
  rw [qmk_eq n d hd]

/-- Embedding of a Go `int` into float64 (`float64(n)`), exact in the model. -/
def intF (n : Int) : F := F.fin (n : ℚ)

/-- Embedding of a Go non-negative size into float64, exact in the model. -/
def natF (n : Nat) : F := F.fin (n : ℚ)

-- Transport lemmas: arithmetic on finite values is exact rational arithmetic.

theorem fin_add (a b : ℚ) : F.fin a + F.fin b = F.fin (a + b) := by
  show F.fin (qadd a b) = F.fin (a + b)
  rw [qadd_eq]

theorem fin_sub (a b : ℚ) : F.fin a - F.fin b = F.fin (a - b) := by
  show F.fin (qadd a (qneg b)) = F.fin (a - b)
  rw [qneg_eq, qadd_eq, sub_eq_add_neg]

theorem fin_mul (a b : ℚ) : F.fin a * F.fin b = F.fin (a * b) := by
  show F.fin (qmul a b) = F.fin (a * b)
  rw [qmul_eq]

theorem fin_neg (a : ℚ) : -(F.fin a) = F.fin (-a) := by
  show F.fin (qneg a) = F.fin (-a)
  rw [qneg_eq]

theorem fin_div (a b : ℚ) (hb : b ≠ 0) : F.fin a / F.fin b = F.fin (a / b) := by
  show F.div (F.fin a) (F.fin b) = F.fin (a / b)
  simp only [F.div, if_neg hb]
  rw [qdiv_eq a b hb]

theorem fin_ltb (a b : ℚ) : F.ltb (F.fin a) (F.fin b) = decide (a < b) := qltb_eq a b

theorem fin_leb (a b : ℚ) : F.leb (F.fin a) (F.fin b) = decide (a ≤ b) := qleb_eq a b

theorem fin_geb (a b : ℚ) : F.geb (F.fin a) (F.fin b) = decide (b ≤ a) := qleb_eq b a

theorem fin_beq (a b : ℚ) : F.beq (F.fin a) (F.fin b) = decide (a = b) := rfl

theorem fin_fmax (a b : ℚ) : F.fmax (F.fin a) (F.fin b) = F.fin (max a b) := by
  simp only [F.fmax, F.ltb, qltb_eq]
  rcases le_or_lt b a with h | h
  · simp [not_lt.mpr h, max_eq_left h]
  · simp [h, max_eq_right h.le]

theorem fin_fmin (a b : ℚ) : F.fmin (F.fin a) (F.fin b) = F.fin (min a b) := by
  simp only [F.fmin, F.ltb, qltb_eq]
  rcases le_or_lt a b with h | h
  · simp [not_lt.mpr h, min_eq_left h]
  · simp [h, min_eq_right h.le]

theorem fin_ffloor (a : ℚ) : F.ffloor (F.fin a) = F.fin (⌊a⌋ : ℤ) := by
  show F.fin ((qfloor a : ℤ) : ℚ) = _
  rw [qfloor_eq]

theorem fin_fceil (a : ℚ) : F.fceil (F.fin a) = F.fin (⌈a⌉ : ℤ) := by
  show F.fin ((qceil a : ℤ) : ℚ) = _
  rw [qceil_eq]

/-! ### Colors (pkg/render/terminal.go, image/color.RGBA) -/

/-- `color.RGBA`: four 8-bit channels, stored as naturals < 256. -/
structure Color where
  R : Nat
  G : Nat
  B : Nat
  A : Nat
deriving DecidableEq, Repr

/-- `RGB` constructor (terminal.go): alpha is 255. -/
def RGB (r g b : Nat) : Color := ⟨r, g, b, 255⟩

/-! ### Vectors (pkg/math3d) -/

/-- Modelled from the spec: `Vec2` with `x, y` as 64-bit floats (the
`vec2.go` source file is not included under src/; it only carries UV
coordinates and temporary edge vectors). -/
structure Vec2 where
  X : F
  Y : F
deriving DecidableEq, Repr

/-- Modelled from the spec: the `V2` constructor. -/
def V2 (x y : F) : Vec2 := ⟨x, y⟩

/-- `math3d.Vec3`. -/
structure Vec3 where
  X : F
  Y : F
  Z : F
deriving DecidableEq, Repr

/-- `math3d.V3`. -/
def V3 (x y z : F) : Vec3 := ⟨x, y, z⟩

namespace Vec3

/-- `Vec3.Add`. -/
def Add (a b : Vec3) : Vec3 := ⟨a.X + b.X, a.Y + b.Y, a.Z + b.Z⟩

/-- `Vec3.Sub`. -/
def Sub (a b : Vec3) : Vec3 := ⟨a.X - b.X, a.Y - b.Y, a.Z - b.Z⟩

/-- `Vec3.Scale`. -/
def Scale (a : Vec3) (s : F) : Vec3 := ⟨a.X * s, a.Y * s, a.Z * s⟩

/-- `Vec3.Dot`. -/
def Dot (a b : Vec3) : F := a.X * b.X + a.Y * b.Y + a.Z * b.Z

/-- `Vec3.Cross`. -/
def Cross (a b : Vec3) : Vec3 :=
  ⟨a.Y * b.Z - a.Z * b.Y, a.Z * b.X - a.X * b.Z, a.X * b.Y - a.Y * b.X⟩

/-- `Vec3.Negate`. -/
def Negate (a : Vec3) : Vec3 := ⟨-a.X, -a.Y, -a.Z⟩

/-- `Vec3.Min` (componentwise `math.Min`). -/
def Min (a b : Vec3) : Vec3 := ⟨F.fmin a.X b.X, F.fmin a.Y b.Y, F.fmin a.Z b.Z⟩

/-- `Vec3.Max` (componentwise `math.Max`). -/
def Max (a b : Vec3) : Vec3 := ⟨F.fmax a.X b.X, F.fmax a.Y b.Y, F.fmax a.Z b.Z⟩

/-- `Vec3.Len` = `math.Sqrt(x*x + y*y + z*z)`.  `math.Sqrt` is passed in as
`sqrtF` (the development is parametric in the square-root implementation;
concrete instances only evaluate it on perfect squares, where any faithful
model agrees). -/
def Len (sqrtF : F → F) (a : Vec3) : F := sqrtF (a.X * a.X + a.Y * a.Y + a.Z * a.Z)

/-- `Vec3.Normalize`: the zero-length vector normalizes to zero. -/
def Normalize (sqrtF : F → F) (a : Vec3) : Vec3 :=
  let l := Len sqrtF a
  if F.beq l (F.fin 0) then ⟨F.fin 0, F.fin 0, F.fin 0⟩
  else ⟨a.X / l, a.Y / l, a.Z / l⟩

end Vec3

/-- `math3d.Vec4`. -/
structure Vec4 where
  X : F
  Y : F
  Z : F
  W : F
deriving DecidableEq, Repr

/-- `math3d.V4FromV3`. -/
def V4FromV3 (v : Vec3) (w : F) : Vec4 := ⟨v.X, v.Y, v.Z, w⟩

/-! ### Matrices (pkg/math3d/mat4.go): 4x4, column-major, element (row r,
col c) at linear index `r + 4*c`. -/

/-- `math3d.Mat4`: 16 doubles in column-major order. -/
def Mat4 := List F
deriving DecidableEq, Repr

/-- Element access `m[i]` (all call sites keep `i < 16`; the default is NaN
to surface any misuse). -/
def Mat4.el (m : Mat4) (i : Nat) : F := m.getD i F.nan

/-- Literal 16-element matrix, in the same order as a Go `Mat4{...}`
composite literal (column-major storage order). -/
def mk16 (a0 a1 a2 a3 a4 a5 a6 a7 a8 a9 a10 a11 a12 a13 a14 a15 : F) : Mat4 :=
  [a0, a1, a2, a3, a4, a5, a6, a7, a8, a9, a10, a11, a12, a13, a14, a15]

/-- `math3d.Identity`. -/
def Identity : Mat4 :=
  mk16 (fq 1) (fq 0) (fq 0) (fq 0) (fq 0) (fq 1) (fq 0) (fq 0)
    (fq 0) (fq 0) (fq 1) (fq 0) (fq 0) (fq 0) (fq 0) (fq 1)

/-- `math3d.Translate`. -/
def Translate (v : Vec3) : Mat4 :=
  mk16 (fq 1) (fq 0) (fq 0) (fq 0) (fq 0) (fq 1) (fq 0) (fq 0)
    (fq 0) (fq 0) (fq 1) (fq 0) v.X v.Y v.Z (fq 1)

/-- Transcendental/irrational primitives of the Go `math` package, passed as
parameters: the development's theorems hold for every implementation, and
concrete witnesses instantiate them only at arguments where the exact value
is forced (e.g. sqrt 1, cos 0) or irrelevant. -/
structure TrigEnv where
  piF : F
  sinF : F → F
  cosF : F → F
  tanF : F → F
  asinF : F → F
  atan2F : F → F → F
  sqrtF : F → F

/-- `math3d.RotateX`. -/
def RotateX (E : TrigEnv) (angle : F) : Mat4 :=
  let c := E.cosF angle
  let s := E.sinF angle
  mk16 (fq 1) (fq 0) (fq 0) (fq 0) (fq 0) c s (fq 0)
    (fq 0) (-s) c (fq 0) (fq 0) (fq 0) (fq 0) (fq 1)

/-- `math3d.RotateY`. -/
def RotateY (E : TrigEnv) (angle : F) : Mat4 :=
  let c := E.cosF angle
  let s := E.sinF angle
  mk16 c (fq 0) (-s) (fq 0) (fq 0) (fq 1) (fq 0) (fq 0)
    s (fq 0) c (fq 0) (fq 0) (fq 0) (fq 0) (fq 1)

/-- `math3d.RotateZ`. -/
def RotateZ (E : TrigEnv) (angle : F) : Mat4 :=
  let c := E.cosF angle
  let s := E.sinF angle
  mk16 c s (fq 0) (fq 0) (-s) c (fq 0) (fq 0)
    (fq 0) (fq 0) (fq 1) (fq 0) (fq 0) (fq 0) (fq 0) (fq 1)

/-- `math3d.Perspective`: `f = 1/tan(fovy/2)`, `nf = 1/(near-far)`. -/
def Perspective (E : TrigEnv) (fovy aspect near far : F) : Mat4 :=
  let f := fq 1 / E.tanF (fovy / fq 2)
  let nf := fq 1 / (near - far)
  mk16 (f / aspect) (fq 0) (fq 0) (fq 0) (fq 0) f (fq 0) (fq 0)
    (fq 0) (fq 0) ((far + near) * nf) (fq (-1))
    (fq 0) (fq 0) (fq 2 * far * near * nf) (fq 0)

/-- `Mat4.Mul` (a * b): the k-loop accumulating `sum` is unrolled; element
(row, col) of the result is at linear index `row + col*4`. -/
def Mat4.Mul (a b : Mat4) : Mat4 :=
  List.ofFn (fun j : Fin 16 =>
    let row := (j : Nat) % 4
    let col := (j : Nat) / 4
    F.fin 0 + a.el (row + 0 * 4) * b.el (0 + col * 4)
      + a.el (row + 1 * 4) * b.el (1 + col * 4)
      + a.el (row + 2 * 4) * b.el (2 + col * 4)
      + a.el (row + 3 * 4) * b.el (3 + col * 4))

/-- `Mat4.MulVec4`. -/
def Mat4.MulVec4 (m : Mat4) (v : Vec4) : Vec4 :=
  ⟨m.el 0 * v.X + m.el 4 * v.Y + m.el 8 * v.Z + m.el 12 * v.W,
   m.el 1 * v.X + m.el 5 * v.Y + m.el 9 * v.Z + m.el 13 * v.W,
   m.el 2 * v.X + m.el 6 * v.Y + m.el 10 * v.Z + m.el 14 * v.W,
   m.el 3 * v.X + m.el 7 * v.Y + m.el 11 * v.Z + m.el 15 * v.W⟩

/-- `Mat4.MulVec3`: point transform with w = 1, dividing by the resulting w
unless it is zero (then w is treated as 1). -/
def Mat4.MulVec3 (m : Mat4) (v : Vec3) : Vec3 :=
  let w0 := m.el 3 * v.X + m.el 7 * v.Y + m.el 11 * v.Z + m.el 15
  let w := if F.beq w0 (F.fin 0) then fq 1 else w0
  ⟨(m.el 0 * v.X + m.el 4 * v.Y + m.el 8 * v.Z + m.el 12) / w,
   (m.el 1 * v.X + m.el 5 * v.Y + m.el 9 * v.Z + m.el 13) / w,
   (m.el 2 * v.X + m.el 6 * v.Y + m.el 10 * v.Z + m.el 14) / w⟩

/-- `Mat4.MulVec3Dir`: direction transform (no translation, no divide). -/
def Mat4.MulVec3Dir (m : Mat4) (v : Vec3) : Vec3 :=
  ⟨m.el 0 * v.X + m.el 4 * v.Y + m.el 8 * v.Z,
   m.el 1 * v.X + m.el 5 * v.Y + m.el 9 * v.Z,
   m.el 2 * v.X + m.el 6 * v.Y + m.el 10 * v.Z⟩

/-- `Mat4.Determinant` (cofactor expansion along the first row of columns,
transcribed from mat4.go). -/
def Mat4.Determinant (m : Mat4) : F :=
  m.el 0 * (m.el 5 * (m.el 10 * m.el 15 - m.el 14 * m.el 11)
      - m.el 9 * (m.el 6 * m.el 15 - m.el 14 * m.el 7)
      + m.el 13 * (m.el 6 * m.el 11 - m.el 10 * m.el 7))
    - m.el 4 * (m.el 1 * (m.el 10 * m.el 15 - m.el 14 * m.el 11)
      - m.el 9 * (m.el 2 * m.el 15 - m.el 14 * m.el 3)
      + m.el 13 * (m.el 2 * m.el 11 - m.el 10 * m.el 3))
    + m.el 8 * (m.el 1 * (m.el 6 * m.el 15 - m.el 14 * m.el 7)
      - m.el 5 * (m.el 2 * m.el 15 - m.el 14 * m.el 3)
      + m.el 13 * (m.el 2 * m.el 7 - m.el 6 * m.el 3))
    - m.el 12 * (m.el 1 * (m.el 6 * m.el 11 - m.el 10 * m.el 7)
      - m.el 5 * (m.el 2 * m.el 11 - m.el 10 * m.el 3)
      + m.el 9 * (m.el 2 * m.el 7 - m.el 6 * m.el 3))

/-- `Mat4.Inverse`: returns the identity when the determinant is zero
(`det == 0` is a float comparison, false for NaN); otherwise the cofactor
formula from mat4.go. -/
def Mat4.Inverse (m : Mat4) : Mat4 :=
  let det := m.Determinant
  if F.beq det (F.fin 0) then Identity
  else
    let invDet := fq 1 / det
    mk16
      ((m.el 5 * (m.el 10 * m.el 15 - m.el 14 * m.el 11) - m.el 9 * (m.el 6 * m.el 15 - m.el 14 * m.el 7) + m.el 13 * (m.el 6 * m.el 11 - m.el 10 * m.el 7)) * invDet)
      (-(m.el 1 * (m.el 10 * m.el 15 - m.el 14 * m.el 11) - m.el 9 * (m.el 2 * m.el 15 - m.el 14 * m.el 3) + m.el 13 * (m.el 2 * m.el 11 - m.el 10 * m.el 3)) * invDet)
      ((m.el 1 * (m.el 6 * m.el 15 - m.el 14 * m.el 7) - m.el 5 * (m.el 2 * m.el 15 - m.el 14 * m.el 3) + m.el 13 * (m.el 2 * m.el 7 - m.el 6 * m.el 3)) * invDet)
      (-(m.el 1 * (m.el 6 * m.el 11 - m.el 10 * m.el 7) - m.el 5 * (m.el 2 * m.el 11 - m.el 10 * m.el 3) + m.el 9 * (m.el 2 * m.el 7 - m.el 6 * m.el 3)) * invDet)
      (-(m.el 4 * (m.el 10 * m.el 15 - m.el 14 * m.el 11) - m.el 8 * (m.el 6 * m.el 15 - m.el 14 * m.el 7) + m.el 12 * (m.el 6 * m.el 11 - m.el 10 * m.el 7)) * invDet)
      ((m.el 0 * (m.el 10 * m.el 15 - m.el 14 * m.el 11) - m.el 8 * (m.el 2 * m.el 15 - m.el 14 * m.el 3) + m.el 12 * (m.el 2 * m.el 11 - m.el 10 * m.el 3)) * invDet)
      (-(m.el 0 * (m.el 6 * m.el 15 - m.el 14 * m.el 7) - m.el 4 * (m.el 2 * m.el 15 - m.el 14 * m.el 3) + m.el 12 * (m.el 2 * m.el 7 - m.el 6 * m.el 3)) * invDet)
      ((m.el 0 * (m.el 6 * m.el 11 - m.el 10 * m.el 7) - m.el 4 * (m.el 2 * m.el 11 - m.el 10 * m.el 3) + m.el 8 * (m.el 2 * m.el 7 - m.el 6 * m.el 3)) * invDet)
      ((m.el 4 * (m.el 9 * m.el 15 - m.el 13 * m.el 11) - m.el 8 * (m.el 5 * m.el 15 - m.el 13 * m.el 7) + m.el 12 * (m.el 5 * m.el 11 - m.el 9 * m.el 7)) * invDet)
      (-(m.el 0 * (m.el 9 * m.el 15 - m.el 13 * m.el 11) - m.el 8 * (m.el 1 * m.el 15 - m.el 13 * m.el 3) + m.el 12 * (m.el 1 * m.el 11 - m.el 9 * m.el 3)) * invDet)
      ((m.el 0 * (m.el 5 * m.el 15 - m.el 13 * m.el 7) - m.el 4 * (m.el 1 * m.el 15 - m.el 13 * m.el 3) + m.el 12 * (m.el 1 * m.el 7 - m.el 5 * m.el 3)) * invDet)
      (-(m.el 0 * (m.el 5 * m.el 11 - m.el 9 * m.el 7) - m.el 4 * (m.el 1 * m.el 11 - m.el 9 * m.el 3) + m.el 8 * (m.el 1 * m.el 7 - m.el 5 * m.el 3)) * invDet)
      (-(m.el 4 * (m.el 9 * m.el 14 - m.el 13 * m.el 10) - m.el 8 * (m.el 5 * m.el 14 - m.el 13 * m.el 6) + m.el 12 * (m.el 5 * m.el 10 - m.el 9 * m.el 6)) * invDet)
      ((m.el 0 * (m.el 9 * m.el 14 - m.el 13 * m.el 10) - m.el 8 * (m.el 1 * m.el 14 - m.el 13 * m.el 2) + m.el 12 * (m.el 1 * m.el 10 - m.el 9 * m.el 2)) * invDet)
      (-(m.el 0 * (m.el 5 * m.el 14 - m.el 13 * m.el 6) - m.el 4 * (m.el 1 * m.el 14 - m.el 13 * m.el 2) + m.el 12 * (m.el 1 * m.el 6 - m.el 5 * m.el 2)) * invDet)
      ((m.el 0 * (m.el 5 * m.el 10 - m.el 9 * m.el 6) - m.el 4 * (m.el 1 * m.el 10 - m.el 9 * m.el 2) + m.el 8 * (m.el 1 * m.el 6 - m.el 5 * m.el 2)) * invDet)

/-! ### Texture sampling (render/texture.go) -/

/-- Embedding a color channel into float64 (`float64(c.R)`), exact. -/
def chF (n : Nat) : F := F.fin (n : ℚ)

/-- `WrapMode`. -/
inductive WrapMode where
  | WrapRepeat : WrapMode
  | WrapClamp : WrapMode
deriving DecidableEq, Repr

/-- `FilterMode`. -/
inductive FilterMode where
  | FilterNearest : FilterMode
  | FilterBilinear : FilterMode
deriving DecidableEq, Repr

/-- `render.Texture`: row-major RGBA pixels with per-axis wrap modes and a
filter mode. -/
structure Texture where
  Width : Nat
  Height : Nat
  Pixels : List Color
  WrapU : WrapMode
  WrapV : WrapMode
  FilterMode : FilterMode

/-- `Texture.GetPixel` with bounds checking (zero color out of bounds). -/
def Texture.GetPixel (t : Texture) (x y : Int) : Color :=
  if x < 0 ∨ x ≥ (t.Width : Int) ∨ y < 0 ∨ y ≥ (t.Height : Int) then ⟨0, 0, 0, 0⟩
  else t.Pixels.getD (y * t.Width + x).toNat ⟨0, 0, 0, 0⟩

/-- `Texture.wrapCoord`: Repeat maps to `coord - floor(coord)`, Clamp to
`max(0, min(1, coord))`. -/
def Texture.wrapCoord (coord : F) (mode : WrapMode) : F :=
  match mode with
  | WrapMode.WrapRepeat => coord - F.ffloor coord
  | WrapMode.WrapClamp => F.fmax (F.fin 0) (F.fmin (F.fin 1) coord)

/-- `lerpColor` (componentwise linear interpolation, truncated to uint8). -/
def lerpColor (a b : Color) (t : F) : Color :=
  ⟨goUint8 (chF a.R + (chF b.R - chF a.R) * t),
   goUint8 (chF a.G + (chF b.G - chF a.G) * t),
   goUint8 (chF a.B + (chF b.B - chF a.B) * t),
   goUint8 (chF a.A + (chF b.A - chF a.A) * t)⟩

/-- `Texture.sampleNearest`: `x = int(u*W)`, `y = int(v*H)`, clamped above. -/
def Texture.sampleNearest (t : Texture) (u v : F) : Color :=
  let x := goInt (u * natF t.Width)
  let y := goInt (v * natF t.Height)
  let x := if x ≥ (t.Width : Int) then (t.Width : Int) - 1 else x
  let y := if y ≥ (t.Height : Int) then (t.Height : Int) - 1 else y
  t.GetPixel x y

/-- `Texture.wrapPixelCoord`: Repeat wraps by Go `%` (sign of the dividend,
then corrected); Clamp clamps to `[0, size-1]`. -/
def Texture.wrapPixelCoord (x : Int) (size : Nat) (mode : WrapMode) : Int :=
  match mode with
  | WrapMode.WrapRepeat =>
    let x := Int.tmod x size
    if x < 0 then x + size else x
  | WrapMode.WrapClamp =>
    if x < 0 then 0 else if x ≥ (size : Int) then (size : Int) - 1 else x

/-- `Texture.sampleBilinear`. -/
def Texture.sampleBilinear (t : Texture) (u v : F) : Color :=
  let fx := u * natF t.Width - fr 1 2
  let fy := v * natF t.Height - fr 1 2
  let x0 := goInt (F.ffloor fx)
  let y0 := goInt (F.ffloor fy)
  let x1 := x0 + 1
  let y1 := y0 + 1
  let tx := fx - intF x0
  let ty := fy - intF y0
  let x0 := Texture.wrapPixelCoord x0 t.Width t.WrapU
  let x1 := Texture.wrapPixelCoord x1 t.Width t.WrapU
  let y0 := Texture.wrapPixelCoord y0 t.Height t.WrapV
  let y1 := Texture.wrapPixelCoord y1 t.Height t.WrapV
  let c00 := t.GetPixel x0 y0
  let c10 := t.GetPixel x1 y0
  let c01 := t.GetPixel x0 y1
  let c11 := t.GetPixel x1 y1
  let top := lerpColor c00 c10 tx
  let bot := lerpColor c01 c11 tx
  lerpColor top bot ty

/-- `Texture.Sample`: wrap per axis, flip V, then filter. -/
def Texture.Sample (t : Texture) (u v : F) : Color :=
  let u := Texture.wrapCoord u t.WrapU
  let v := Texture.wrapCoord v t.WrapV
  let v := F.fin 1 - v
  match t.FilterMode with
  | FilterMode.FilterBilinear => t.sampleBilinear u v
  | FilterMode.FilterNearest => t.sampleNearest u v

/-- `MultiplyColor`: channels scaled by `intensity`, saturating at 255
through `math.Min`; alpha preserved. -/
def MultiplyColor (c : Color) (intensity : F) : Color :=
  ⟨goUint8 (F.fmin (fq 255) (chF c.R * intensity)),
   goUint8 (F.fmin (fq 255) (chF c.G * intensity)),
   goUint8 (F.fmin (fq 255) (chF c.B * intensity)),
   c.A⟩

/-! ### Framebuffer (render/framebuffer.go) -/

/-- `render.Framebuffer`: row-major RGBA pixel grid. -/
structure Framebuffer where
  Width : Nat
  Height : Nat
  Pixels : List Color
deriving DecidableEq, Repr

/-- `Framebuffer.SetPixel`: silently ignores out-of-bounds writes. -/
def Framebuffer.SetPixel (fb : Framebuffer) (x y : Int) (c : Color) : Framebuffer :=
  if x < 0 ∨ x ≥ (fb.Width : Int) ∨ y < 0 ∨ y ≥ (fb.Height : Int) then fb
  else { fb with Pixels := fb.Pixels.set (y * fb.Width + x).toNat c }

/-- `Framebuffer.GetPixel`: transparent black out of bounds. -/
def Framebuffer.GetPixel (fb : Framebuffer) (x y : Int) : Color :=
  if x < 0 ∨ x ≥ (fb.Width : Int) ∨ y < 0 ∨ y ≥ (fb.Height : Int) then ⟨0, 0, 0, 0⟩
  else fb.Pixels.getD (y * fb.Width + x).toNat ⟨0, 0, 0, 0⟩

/-- Go integer `abs` helper from framebuffer.go. -/
def goAbs (x : Int) : Int := if x < 0 then -x else x

/-- One-per-iteration body of Bresenham's loop, with fuel bounding the
iteration count (the Go loop performs at most `dx - dy + 1` iterations:
every non-final iteration moves x or y one step toward the endpoint). -/
def bresLoop (c : Color) (x1 y1 sx sy dx dy : Int) :
    Nat → Framebuffer → Int → Int → Int → Framebuffer
  | 0, fb, _, _, _ => fb
  | fuel + 1, fb, x0, y0, err =>
    let fb := fb.SetPixel x0 y0 c
    if x0 = x1 ∧ y0 = y1 then fb
    else
      let e2 := 2 * err
      let err1 := if e2 ≥ dy then err + dy else err
      let x0' := if e2 ≥ dy then x0 + sx else x0
      let err2 := if e2 ≤ dx then err1 + dx else err1
      let y0' := if e2 ≤ dx then y0 + sy else y0
      bresLoop c x1 y1 sx sy dx dy fuel fb x0' y0' err2

/-- `Framebuffer.DrawLine` (Bresenham, all octants, inclusive endpoints). -/
def Framebuffer.DrawLine (fb : Framebuffer) (x0 y0 x1 y1 : Int) (c : Color) : Framebuffer :=
  let dx := goAbs (x1 - x0)
  let dy := -(goAbs (y1 - y0))
  let sx : Int := if x0 > x1 then -1 else 1
  let sy : Int := if y0 > y1 then -1 else 1
  bresLoop c x1 y1 sx sy dx dy (dx - dy + 1).toNat fb x0 y0 (dx + dy)

/-! ### Planes, frustum, AABB (render/frustum.go) -/

/-- `render.Plane`: `Normal . p + D` is the signed distance once normalized. -/
structure Plane where
  Normal : Vec3
  D : F
deriving DecidableEq, Repr

/-- `Plane.Normalize`: scales normal and D by `1/|normal|` unless the length
is zero. -/
def Plane.Normalize (sqrtF : F → F) (p : Plane) : Plane :=
  let len := p.Normal.Len sqrtF
  if F.beq len (F.fin 0) then p
  else { Normal := p.Normal.Scale (fq 1 / len), D := p.D / len }

/-- `Plane.DistanceToPoint`: signed distance `normal . point + D`. -/
def Plane.DistanceToPoint (p : Plane) (point : Vec3) : F :=
  p.Normal.Dot point + p.D

/-- `render.Frustum`: six planes ordered Left, Right, Bottom, Top, Near, Far. -/
structure Frustum where
  Planes : List Plane
deriving DecidableEq, Repr

/-- `NewFrustumFromMatrix` (Gribb/Hartmann rows of the column-major
view-projection matrix), each plane normalized. -/
def NewFrustumFromMatrix (sqrtF : F → F) (m : Mat4) : Frustum :=
  let raw : List Plane :=
    [⟨⟨m.el 3 + m.el 0, m.el 7 + m.el 4, m.el 11 + m.el 8⟩, m.el 15 + m.el 12⟩,
     ⟨⟨m.el 3 - m.el 0, m.el 7 - m.el 4, m.el 11 - m.el 8⟩, m.el 15 - m.el 12⟩,
     ⟨⟨m.el 3 + m.el 1, m.el 7 + m.el 5, m.el 11 + m.el 9⟩, m.el 15 + m.el 13⟩,
     ⟨⟨m.el 3 - m.el 1, m.el 7 - m.el 5, m.el 11 - m.el 9⟩, m.el 15 - m.el 13⟩,
     ⟨⟨m.el 3 + m.el 2, m.el 7 + m.el 6, m.el 11 + m.el 10⟩, m.el 15 + m.el 14⟩,
     ⟨⟨m.el 3 - m.el 2, m.el 7 - m.el 6, m.el 11 - m.el 10⟩, m.el 15 - m.el 14⟩]
  ⟨raw.map (Plane.Normalize sqrtF)⟩

/-- `ExtractFrustum` is an alias for `NewFrustumFromMatrix`. -/
def ExtractFrustum (sqrtF : F → F) (m : Mat4) : Frustum := NewFrustumFromMatrix sqrtF m

/-- `render.AABB`. -/
structure AABB where
  Min : Vec3
  Max : Vec3
deriving DecidableEq, Repr

/-- `AABB.Transform`: transforms the 8 corners as points and rebounds them
(fold over corners 1..7 starting from corner 0). -/
def AABB.Transform (b : AABB) (m : Mat4) : AABB :=
  let t0 := m.MulVec3 ⟨b.Min.X, b.Min.Y, b.Min.Z⟩
  let rest : List Vec3 :=
    [⟨b.Max.X, b.Min.Y, b.Min.Z⟩, ⟨b.Min.X, b.Max.Y, b.Min.Z⟩,
     ⟨b.Max.X, b.Max.Y, b.Min.Z⟩, ⟨b.Min.X, b.Min.Y, b.Max.Z⟩,
     ⟨b.Max.X, b.Min.Y, b.Max.Z⟩, ⟨b.Min.X, b.Max.Y, b.Max.Z⟩,
     ⟨b.Max.X, b.Max.Y, b.Max.Z⟩]
  let mm := rest.foldl
    (fun (mm : Vec3 × Vec3) c =>
      let t := m.MulVec3 c
      (mm.1.Min t, mm.2.Max t)) (t0, t0)
  ⟨mm.1, mm.2⟩

/-- `TransformAABB` convenience wrapper. -/
def TransformAABB (box : AABB) (m : Mat4) : AABB := box.Transform m

/-- `selectComponent`: branchless conditional selection helper. -/
def selectComponent (cond : Bool) (a b : F) : F := if cond then a else b

/-- `Frustum.IntersectAABB`: positive-vertex test; the Go loop with early
`return false` is the conjunction over the six planes. -/
def Frustum.IntersectAABB (f : Frustum) (box : AABB) : Bool :=
  f.Planes.all fun plane =>
    let pVertex : Vec3 :=
      ⟨selectComponent (F.geb plane.Normal.X (F.fin 0)) box.Max.X box.Min.X,
       selectComponent (F.geb plane.Normal.Y (F.fin 0)) box.Max.Y box.Min.Y,
       selectComponent (F.geb plane.Normal.Z (F.fin 0)) box.Max.Z box.Min.Z⟩
    ! F.ltb (plane.DistanceToPoint pVertex) (F.fin 0)

/-- `Frustum.IntersectsFrustum` is an alias for `IntersectAABB`. -/
def Frustum.IntersectsFrustum (f : Frustum) (box : AABB) : Bool := f.IntersectAABB box

/-! ### Rasterizer state (render/rasterizer.go)

The Go `Rasterizer` borrows a `*Camera` and reads only
`camera.ViewProjectionMatrix()` from it during draws; the model stores that
reconciled matrix (`viewProj`).  The camera's lazy cache that produces it is
modelled and analysed separately below. -/

/-- `render.Vertex`. -/
structure Vertex where
  Position : Vec3
  Normal : Vec3
  UV : Vec2
  Color : Color

/-- `render.Triangle` (`V [3]Vertex`, with the three fixed indices spelled
out since every access uses a constant index). -/
structure Triangle where
  V0 : Vertex
  V1 : Vertex
  V2 : Vertex

/-- `render.CullingStats`. -/
structure CullingStats where
  MeshesTested : Int
  MeshesCulled : Int
  MeshesDrawn : Int
deriving DecidableEq, Repr

/-- `render.Rasterizer` state. -/
structure RState where
  viewProj : Mat4
  fb : Framebuffer
  zbuffer : List F
  frustum : Frustum
  frustumDirty : Bool
  CullingStats : CullingStats
  DisableBackfaceCulling : Bool
deriving DecidableEq, Repr

namespace RState

/-- `Rasterizer.Width` (the framebuffer is always present in the model). -/
def Width (r : RState) : Nat := r.fb.Width

/-- `Rasterizer.Height`. -/
def Height (r : RState) : Nat := r.fb.Height

end RState

/-- `math.MaxFloat64`, the largest finite double (2^1024 - 2^971),
exactly, in kernel-computable form. -/
def maxFloat64Q : ℚ := qmk ((2 ^ 1024 - 2 ^ 971 : Nat) : Int) 1

/-- `math.MaxFloat64` as an idealized double. -/
def maxFloat64 : F := F.fin maxFloat64Q

/-- `Rasterizer.getDepth`: `math.MaxFloat64` out of bounds.  (An in-bounds
read of a depth buffer shorter than Width*Height would panic in Go; the
NaN default never arises in the theorems below, which keep the length
invariant.) -/
def RState.getDepth (r : RState) (x y : Int) : F :=
  if x < 0 ∨ x ≥ (r.Width : Int) ∨ y < 0 ∨ y ≥ (r.Height : Int) then maxFloat64
  else r.zbuffer.getD (y * r.Width + x).toNat F.nan

/-- `Rasterizer.setDepth`: ignores out-of-bounds writes. -/
def RState.setDepth (r : RState) (x y : Int) (z : F) : RState :=
  if x < 0 ∨ x ≥ (r.Width : Int) ∨ y < 0 ∨ y ≥ (r.Height : Int) then r
  else { r with zbuffer := r.zbuffer.set (y * r.Width + x).toNat z }

/-! ClearDepth (rasterizer.go): set cell 0 to MaxFloat64, then copy-double. -/

/-- Go `copy(buf[i:], buf[:i])`: copies `min i (len - i)` elements. -/
def goCopyWithin (buf : List F) (i : Nat) : List F :=
  let k := min i (buf.length - i)
  buf.take i ++ buf.take k ++ buf.drop (i + k)

/-- The doubling loop `for i := 1; i < n; i *= 2`.  The fuel (one unit per
iteration) is set to the buffer length by the caller, which bounds the
iteration count: i at least doubles each pass starting from 1. -/
def clearLoop : Nat → List F → Nat → List F
  | 0, buf, _ => buf
  | fuel + 1, buf, i =>
    if i < buf.length then clearLoop fuel (goCopyWithin buf i) (2 * i) else buf

/-- `Rasterizer.ClearDepth`. -/
def RState.ClearDepth (r : RState) : RState :=
  if r.zbuffer.length = 0 then r
  else { r with zbuffer := clearLoop r.zbuffer.length (r.zbuffer.set 0 maxFloat64) 1 }

/-! ### Triangle setup shared by the draw paths -/

/-- `screenVertex`: a vertex transformed to screen space. -/
structure screenVertex where
  X : F
  Y : F
  Z : F
  W : F
  Color : Color
  Normal : Vec3
  UV : Vec2

/-- The per-vertex body of the transform loops in rasterizer.go: clip-space
transform, perspective divide when `clip.W != 0` (the screen fields keep
their zero value otherwise), NDC-to-screen mapping with flipped Y, and
attribute copy. -/
def projectVertex (r : RState) (v : Vertex) : screenVertex :=
  let clipPos := r.viewProj.MulVec4 (V4FromV3 v.Position (fq 1))
  let dx := if F.beq clipPos.W (F.fin 0) then F.fin 0 else clipPos.X / clipPos.W
  let dy := if F.beq clipPos.W (F.fin 0) then F.fin 0 else clipPos.Y / clipPos.W
  let dz := if F.beq clipPos.W (F.fin 0) then F.fin 0 else clipPos.Z / clipPos.W
  { X := (dx + fq 1) * fr 1 2 * natF r.Width
    Y := (fq 1 - dy) * fr 1 2 * natF r.Height
    Z := dz
    W := clipPos.W
    Color := v.Color
    Normal := v.Normal
    UV := v.UV }

/-- `allBehind`: set to false as soon as some vertex has `clip.W > 0`. -/
def allBehind (sv0 sv1 sv2 : screenVertex) : Bool :=
  !(F.gtb sv0.W (F.fin 0) || F.gtb sv1.W (F.fin 0) || F.gtb sv2.W (F.fin 0))

/-- The screen-space backface cross product
`(v1-v0) x (v2-v0)` computed through `math3d.V2`. -/
def screenCross (sv0 sv1 sv2 : screenVertex) : F :=
  let edge1 := V2 (sv1.X - sv0.X) (sv1.Y - sv0.Y)
  let edge2 := V2 (sv2.X - sv0.X) (sv2.Y - sv0.Y)
  edge1.X * edge2.Y - edge1.Y * edge2.X

/-- `min3` (rasterizer.go). -/
def min3 (a b c : F) : F := F.fmin a (F.fmin b c)

/-- `max3` (rasterizer.go). -/
def max3 (a b c : F) : F := F.fmax a (F.fmax b c)

/-- The clamped bounding box of the three screen vertices, as computed
identically in every triangle draw path. -/
def computeBBox (r : RState) (sv0 sv1 sv2 : screenVertex) : Int × Int × Int × Int :=
  (goInt (F.fmax (F.fin 0) (F.ffloor (min3 sv0.X sv1.X sv2.X))),
   goInt (F.fmin (intF ((r.Width : Int) - 1)) (F.fceil (max3 sv0.X sv1.X sv2.X))),
   goInt (F.fmax (F.fin 0) (F.ffloor (min3 sv0.Y sv1.Y sv2.Y))),
   goInt (F.fmin (intF ((r.Height : Int) - 1)) (F.fceil (max3 sv0.Y sv1.Y sv2.Y))))

/-- `[lo..hi]` inclusive, empty when `lo > hi`: the index set of a Go
`for k := lo; k <= hi; k++` loop. -/
def intRange (lo hi : Int) : List Int :=
  (List.range (hi + 1 - lo).toNat).map fun i => lo + (i : Int)

/-- Row-major enumeration of the two nested pixel loops. -/
def pixelList (minX maxX minY maxY : Int) : List (Int × Int) :=
  (intRange minY maxY).flatMap fun y => (intRange minX maxX).map fun x => (x, y)

/-- `barycentric` (rasterizer.go): dot-product solve; note the reciprocal
`1.0 / (dot00*dot11 - dot01*dot01)` divides by zero for degenerate
triangles, yielding +Inf and then NaN coordinates. -/
def barycentric (x0 y0 x1 y1 x2 y2 px py : F) : Vec3 :=
  let v0x := x2 - x0
  let v0y := y2 - y0
  let v1x := x1 - x0
  let v1y := y1 - y0
  let v2x := px - x0
  let v2y := py - y0
  let dot00 := v0x * v0x + v0y * v0y
  let dot01 := v0x * v1x + v0y * v1y
  let dot02 := v0x * v2x + v0y * v2y
  let dot11 := v1x * v1x + v1y * v1y
  let dot12 := v1x * v2x + v1y * v2y
  let invDenom := fq 1 / (dot00 * dot11 - dot01 * dot01)
  let u := (dot11 * dot02 - dot01 * dot12) * invDenom
  let v := (dot00 * dot12 - dot01 * dot02) * invDenom
  V3 (fq 1 - u - v) v u

/-- `interpolateColor3`. -/
def interpolateColor3 (c0 c1 c2 : Color) (bc : Vec3) : Color :=
  RGB (goUint8 (chF c0.R * bc.X + chF c1.R * bc.Y + chF c2.R * bc.Z))
    (goUint8 (chF c0.G * bc.X + chF c1.G * bc.Y + chF c2.G * bc.Z))
    (goUint8 (chF c0.B * bc.X + chF c1.B * bc.Y + chF c2.B * bc.Z))

/-! ### DrawTriangle (flat/vertex-color path) -/

/-- Body of DrawTriangle's pixel loop: inside test on the barycentric signs,
strict-less depth test, then depth write followed by the pixel write. -/
def drawTrianglePixel (sv0 sv1 sv2 : screenVertex) (r : RState) (p : Int × Int) : RState :=
  let px := intF p.1 + fr 1 2
  let py := intF p.2 + fr 1 2
  let bc := barycentric sv0.X sv0.Y sv1.X sv1.Y sv2.X sv2.Y px py
  if F.ltb bc.X (F.fin 0) || F.ltb bc.Y (F.fin 0) || F.ltb bc.Z (F.fin 0) then r
  else
    let z := bc.X * sv0.Z + bc.Y * sv1.Z + bc.Z * sv2.Z
    if F.geb z (r.getDepth p.1 p.2) then r
    else
      let color := interpolateColor3 sv0.Color sv1.Color sv2.Color bc
      let r1 := r.setDepth p.1 p.2 z
      { r1 with fb := r1.fb.SetPixel p.1 p.2 color }

/-- `Rasterizer.DrawTriangle`. -/
def RState.DrawTriangle (r : RState) (tri : Triangle) : RState :=
  let sv0 := projectVertex r tri.V0
  let sv1 := projectVertex r tri.V1
  let sv2 := projectVertex r tri.V2
  if allBehind sv0 sv1 sv2 then r
  else if F.ltb (screenCross sv0 sv1 sv2) (F.fin 0) then r
  else
    let bb := computeBBox r sv0 sv1 sv2
    (pixelList bb.1 bb.2.1 bb.2.2.1 bb.2.2.2).foldl (drawTrianglePixel sv0 sv1 sv2) r

/-! ### Lighting intensities as computed by the draw paths -/

/-- The per-vertex Gouraud intensity as computed in DrawTriangleGouraud,
DrawTriangleTexturedGouraud and the Opt variants:
`0.3 + 0.7 * max(0, normal . normLight)` where `normLight` is the
already-normalized light direction. -/
def gouraudIntensity (normal normLight : Vec3) : F :=
  fr 3 10 + fr 7 10 * F.fmax (F.fin 0) (normal.Dot normLight)

/-- The face intensity of DrawTriangleTextured: the face normal comes from
the world-space edges, but the diffuse term is clamped at 0.2 (not 0):
`0.3 + 0.7 * max(0.2, faceNormal . normalize(lightDir))`. -/
def texturedFaceIntensity (sqrtF : F → F) (tri : Triangle) (lightDir : Vec3) : F :=
  let e1 := tri.V1.Position.Sub tri.V0.Position
  let e2 := tri.V2.Position.Sub tri.V0.Position
  let faceNormal := (e1.Cross e2).Normalize sqrtF
  let intensity := F.fmax (fr 1 5) (faceNormal.Dot (lightDir.Normalize sqrtF))
  fr 3 10 + fr 7 10 * intensity

/-- The face intensity of DrawTriangleLit:
`0.3 + 0.7 * max(0, faceNormal . normalize(lightDir))` with the face normal
from the world-space edges. -/
def litFaceIntensity (sqrtF : F → F) (v0 v1 v2 : Vec3) (lightDir : Vec3) : F :=
  let edge1 := v1.Sub v0
  let edge2 := v2.Sub v0
  let normal := (edge1.Cross edge2).Normalize sqrtF
  let intensity := F.fmax (F.fin 0) (normal.Dot (lightDir.Normalize sqrtF))
  fr 3 10 + fr 7 10 * intensity

/-- Vertex-color scaling `RGB(uint8(R*i), uint8(G*i), uint8(B*i))` used by
the Gouraud paths and DrawTriangleLit (no saturation: plain conversion). -/
def scaleColor (c : Color) (intensity : F) : Color :=
  RGB (goUint8 (chF c.R * intensity)) (goUint8 (chF c.G * intensity))
    (goUint8 (chF c.B * intensity))

/-! ### DrawTriangleGouraud -/

/-- `Rasterizer.DrawTriangleGouraud`: like DrawTriangle, but each screen
vertex's color is the vertex color scaled by the per-vertex intensity. -/
def RState.DrawTriangleGouraud (sqrtF : F → F) (r : RState) (tri : Triangle)
    (lightDir : Vec3) : RState :=
  let normLight := lightDir.Normalize sqrtF
  let sv0p := projectVertex r tri.V0
  let sv1p := projectVertex r tri.V1
  let sv2p := projectVertex r tri.V2
  let sv0 := { sv0p with Color := scaleColor tri.V0.Color (gouraudIntensity tri.V0.Normal normLight) }
  let sv1 := { sv1p with Color := scaleColor tri.V1.Color (gouraudIntensity tri.V1.Normal normLight) }
  let sv2 := { sv2p with Color := scaleColor tri.V2.Color (gouraudIntensity tri.V2.Normal normLight) }
  if allBehind sv0 sv1 sv2 then r
  else if F.ltb (screenCross sv0 sv1 sv2) (F.fin 0) then r
  else
    let bb := computeBBox r sv0 sv1 sv2
    (pixelList bb.1 bb.2.1 bb.2.2.1 bb.2.2.2).foldl (drawTrianglePixel sv0 sv1 sv2) r

/-! ### DrawTriangleTextured -/

/-- `invW[i] = 1/sv[i].W` when `sv[i].W != 0`, else 0. -/
def invWOf (sv : screenVertex) : F :=
  if F.beq sv.W (F.fin 0) then F.fin 0 else fq 1 / sv.W

/-- Body of DrawTriangleTextured's pixel loop: inside test, depth test,
perspective-correct UV (skipping when the perspective weight sum is zero),
texture sample, fixed face intensity, then depth and pixel writes. -/
def drawTexturedPixel (sv0 sv1 sv2 : screenVertex) (invW0 invW1 invW2 : F)
    (tex : Texture) (intensity : F) (r : RState) (p : Int × Int) : RState :=
  let px := intF p.1 + fr 1 2
  let py := intF p.2 + fr 1 2
  let bc := barycentric sv0.X sv0.Y sv1.X sv1.Y sv2.X sv2.Y px py
  if F.ltb bc.X (F.fin 0) || F.ltb bc.Y (F.fin 0) || F.ltb bc.Z (F.fin 0) then r
  else
    let z := bc.X * sv0.Z + bc.Y * sv1.Z + bc.Z * sv2.Z
    if F.geb z (r.getDepth p.1 p.2) then r
    else
      let w0 := bc.X * invW0
      let w1 := bc.Y * invW1
      let w2 := bc.Z * invW2
      let oneOverW := w0 + w1 + w2
      if F.beq oneOverW (F.fin 0) then r
      else
        let u := (w0 * sv0.UV.X + w1 * sv1.UV.X + w2 * sv2.UV.X) / oneOverW
        let v := (w0 * sv0.UV.Y + w1 * sv1.UV.Y + w2 * sv2.UV.Y) / oneOverW
        let texColor := tex.Sample u v
        let litColor := MultiplyColor texColor intensity
        let r1 := r.setDepth p.1 p.2 z
        { r1 with fb := r1.fb.SetPixel p.1 p.2 litColor }

/-- `Rasterizer.DrawTriangleTextured`. -/
def RState.DrawTriangleTextured (sqrtF : F → F) (r : RState) (tri : Triangle)
    (tex : Texture) (lightDir : Vec3) : RState :=
  let sv0 := projectVertex r tri.V0
  let sv1 := projectVertex r tri.V1
  let sv2 := projectVertex r tri.V2
  if allBehind sv0 sv1 sv2 then r
  else if F.ltb (screenCross sv0 sv1 sv2) (F.fin 0) then r
  else
    let intensity := texturedFaceIntensity sqrtF tri lightDir
    let bb := computeBBox r sv0 sv1 sv2
    (pixelList bb.1 bb.2.1 bb.2.2.1 bb.2.2.2).foldl
      (drawTexturedPixel sv0 sv1 sv2 (invWOf sv0) (invWOf sv1) (invWOf sv2) tex intensity) r

/-! ### DrawTriangleTexturedGouraud -/

/-- Body of DrawTriangleTexturedGouraud's pixel loop: as the textured body,
but the intensity is interpolated perspective-correctly from the per-vertex
intensities. -/
def drawTexturedGouraudPixel (sv0 sv1 sv2 : screenVertex) (invW0 invW1 invW2 : F)
    (tex : Texture) (i0 i1 i2 : F) (r : RState) (p : Int × Int) : RState :=
  let px := intF p.1 + fr 1 2
  let py := intF p.2 + fr 1 2
  let bc := barycentric sv0.X sv0.Y sv1.X sv1.Y sv2.X sv2.Y px py
  if F.ltb bc.X (F.fin 0) || F.ltb bc.Y (F.fin 0) || F.ltb bc.Z (F.fin 0) then r
  else
    let z := bc.X * sv0.Z + bc.Y * sv1.Z + bc.Z * sv2.Z
    if F.geb z (r.getDepth p.1 p.2) then r
    else
      let w0 := bc.X * invW0
      let w1 := bc.Y * invW1
      let w2 := bc.Z * invW2
      let oneOverW := w0 + w1 + w2
      if F.beq oneOverW (F.fin 0) then r
      else
        let u := (w0 * sv0.UV.X + w1 * sv1.UV.X + w2 * sv2.UV.X) / oneOverW
        let v := (w0 * sv0.UV.Y + w1 * sv1.UV.Y + w2 * sv2.UV.Y) / oneOverW
        let intensity := (w0 * i0 + w1 * i1 + w2 * i2) / oneOverW
        let texColor := tex.Sample u v
        let litColor := MultiplyColor texColor intensity
        let r1 := r.setDepth p.1 p.2 z
        { r1 with fb := r1.fb.SetPixel p.1 p.2 litColor }

/-- `Rasterizer.DrawTriangleTexturedGouraud`. -/
def RState.DrawTriangleTexturedGouraud (sqrtF : F → F) (r : RState) (tri : Triangle)
    (tex : Texture) (lightDir : Vec3) : RState :=
  let normLight := lightDir.Normalize sqrtF
  let sv0 := projectVertex r tri.V0
  let sv1 := projectVertex r tri.V1
  let sv2 := projectVertex r tri.V2
  let i0 := gouraudIntensity tri.V0.Normal normLight
  let i1 := gouraudIntensity tri.V1.Normal normLight
  let i2 := gouraudIntensity tri.V2.Normal normLight
  if allBehind sv0 sv1 sv2 then r
  else if F.ltb (screenCross sv0 sv1 sv2) (F.fin 0) then r
  else
    let bb := computeBBox r sv0 sv1 sv2
    (pixelList bb.1 bb.2.1 bb.2.2.1 bb.2.2.2).foldl
      (drawTexturedGouraudPixel sv0 sv1 sv2 (invWOf sv0) (invWOf sv1) (invWOf sv2) tex i0 i1 i2) r

/-! ### DrawTriangleFlat / DrawTriangleLit -/

/-- The zero Vec3 (Go zero value). -/
def zeroV3 : Vec3 := ⟨F.fin 0, F.fin 0, F.fin 0⟩

/-- The zero Vec2 (Go zero value). -/
def zeroV2 : Vec2 := ⟨F.fin 0, F.fin 0⟩

/-- `Rasterizer.DrawTriangleFlat`: single-color triangle through
DrawTriangle (normals and UVs are zero values). -/
def RState.DrawTriangleFlat (r : RState) (v0 v1 v2 : Vec3) (color : Color) : RState :=
  r.DrawTriangle ⟨⟨v0, zeroV3, zeroV2, color⟩, ⟨v1, zeroV3, zeroV2, color⟩, ⟨v2, zeroV3, zeroV2, color⟩⟩

/-- `Rasterizer.DrawTriangleLit`: face normal from the world-space edges,
one intensity for the whole triangle, applied to the base color. -/
def RState.DrawTriangleLit (sqrtF : F → F) (r : RState) (v0 v1 v2 : Vec3)
    (baseColor : Color) (lightDir : Vec3) : RState :=
  let litColor := scaleColor baseColor (litFaceIntensity sqrtF v0 v1 v2 lightDir)
  r.DrawTriangleFlat v0 v1 v2 litColor

/-! ### Optimized edge-function rasterizers (the Opt variants) -/

/-- `edgeCoeffs`: A = y0-y1, B = x1-x0, C = x0*y1 - x1*y0. -/
def edgeCoeffs (x0 y0 x1 y1 : F) : F × F × F :=
  (y0 - y1, x1 - x0, x0 * y1 - x1 * y0)

/-- `edgeFunc`: A*x + B*y + C. -/
def edgeFunc (A B C x y : F) : F := A * x + B * y + C

/-- Inner (x) loop body of DrawTriangleGouraudOpt: coverage test on the raw
edge values, depth test without a bounds check on `zbuffer[idx]` (the model
reads a NaN default where Go would panic; the in-bounds theorem below shows
the guarded preconditions keep every access inside the buffer), then the
depth write and pixel write; the edge values step by A after every pixel. -/
def gouraudOptInner (invArea z0 z1 z2 : F) (c0 c1 c2 : Color) (A0 A1 A2 : F)
    (rowOffset : Int) (y : Int) (acc : RState × F × F × F) (x : Int) : RState × F × F × F :=
  let r := acc.1
  let w0 := acc.2.1
  let w1 := acc.2.2.1
  let w2 := acc.2.2.2
  let r' :=
    if F.geb w0 (F.fin 0) && F.geb w1 (F.fin 0) && F.geb w2 (F.fin 0) then
      let bc0 := w0 * invArea
      let bc1 := w1 * invArea
      let bc2 := w2 * invArea
      let z := bc0 * z0 + bc1 * z1 + bc2 * z2
      let idx := rowOffset + x
      if F.ltb z (r.zbuffer.getD idx.toNat F.nan) then
        let cr := goUint8 (chF c0.R * bc0 + chF c1.R * bc1 + chF c2.R * bc2)
        let cg := goUint8 (chF c0.G * bc0 + chF c1.G * bc1 + chF c2.G * bc2)
        let cb := goUint8 (chF c0.B * bc0 + chF c1.B * bc1 + chF c2.B * bc2)
        let r1 := { r with zbuffer := r.zbuffer.set idx.toNat z }
        { r1 with fb := r1.fb.SetPixel x y (RGB cr cg cb) }
      else r
    else r
  (r', w0 + A0, w1 + A1, w2 + A2)

/-- Outer (y) loop body of DrawTriangleGouraudOpt: each row starts from the
row edge values, which step by B after the row. -/
def gouraudOptRow (invArea z0 z1 z2 : F) (c0 c1 c2 : Color) (A0 A1 A2 B0 B1 B2 : F)
    (width : Nat) (minX maxX : Int) (acc : RState × F × F × F) (y : Int) : RState × F × F × F :=
  let r := acc.1
  let w0Row := acc.2.1
  let w1Row := acc.2.2.1
  let w2Row := acc.2.2.2
  let rowOffset := y * (width : Int)
  let inner := (intRange minX maxX).foldl
    (gouraudOptInner invArea z0 z1 z2 c0 c1 c2 A0 A1 A2 rowOffset y)
    (r, w0Row, w1Row, w2Row)
  (inner.1, w0Row + B0, w1Row + B1, w2Row + B2)

/-- `Rasterizer.DrawTriangleGouraudOpt` (render/rasterizer_opt.go): honours
`DisableBackfaceCulling`, returns on an empty clamped box, and skips
zero-area triangles (`area2 == 0`).  (The Go code leaves `sv[i].Normal/UV`
at their zero values; the model copies them, and they are unused.) -/
def RState.DrawTriangleGouraudOpt (sqrtF : F → F) (r : RState) (tri : Triangle)
    (lightDir : Vec3) : RState :=
  let normLight := lightDir.Normalize sqrtF
  let sv0p := projectVertex r tri.V0
  let sv1p := projectVertex r tri.V1
  let sv2p := projectVertex r tri.V2
  let sv0 := { sv0p with Color := scaleColor tri.V0.Color (gouraudIntensity tri.V0.Normal normLight) }
  let sv1 := { sv1p with Color := scaleColor tri.V1.Color (gouraudIntensity tri.V1.Normal normLight) }
  let sv2 := { sv2p with Color := scaleColor tri.V2.Color (gouraudIntensity tri.V2.Normal normLight) }
  if allBehind sv0 sv1 sv2 then r
  else
    let cross := screenCross sv0 sv1 sv2
    if F.ltb cross (F.fin 0) && !r.DisableBackfaceCulling then r
    else
      let bb := computeBBox r sv0 sv1 sv2
      let minX := bb.1
      let maxX := bb.2.1
      let minY := bb.2.2.1
      let maxY := bb.2.2.2
      if minX > maxX ∨ minY > maxY then r
      else
        let e0 := edgeCoeffs sv1.X sv1.Y sv2.X sv2.Y
        let e1 := edgeCoeffs sv2.X sv2.Y sv0.X sv0.Y
        let e2 := edgeCoeffs sv0.X sv0.Y sv1.X sv1.Y
        let area2 := cross
        if F.beq area2 (F.fin 0) then r
        else
          let invArea := fq 1 / area2
          let px := intF minX + fr 1 2
          let py := intF minY + fr 1 2
          let w0Row := edgeFunc e0.1 e0.2.1 e0.2.2 px py
          let w1Row := edgeFunc e1.1 e1.2.1 e1.2.2 px py
          let w2Row := edgeFunc e2.1 e2.2.1 e2.2.2 px py
          ((intRange minY maxY).foldl
            (gouraudOptRow invArea sv0.Z sv1.Z sv2.Z sv0.Color sv1.Color sv2.Color
              e0.1 e1.1 e2.1 e0.2.1 e1.2.1 e2.2.1 r.Width minX maxX)
            (r, w0Row, w1Row, w2Row)).1

/-- Inner (x) loop body of DrawTriangleTexturedOpt: this variant does bound
the depth access by `idx < len(zbuffer)`, and multiplies by the reciprocal
of the perspective weight sum when it is nonzero. -/
def texturedOptInner (invArea z0 z1 z2 : F) (sv0 sv1 sv2 : screenVertex)
    (invW0 invW1 invW2 i0 i1 i2 : F) (tex : Texture) (A0 A1 A2 : F)
    (rowOffset : Int) (y : Int) (acc : RState × F × F × F) (x : Int) : RState × F × F × F :=
  let r := acc.1
  let w0 := acc.2.1
  let w1 := acc.2.2.1
  let w2 := acc.2.2.2
  let r' :=
    if F.geb w0 (F.fin 0) && F.geb w1 (F.fin 0) && F.geb w2 (F.fin 0) then
      let bc0 := w0 * invArea
      let bc1 := w1 * invArea
      let bc2 := w2 * invArea
      let z := bc0 * z0 + bc1 * z1 + bc2 * z2
      let idx := rowOffset + x
      if idx < (r.zbuffer.length : Int) ∧
          F.ltb z (r.zbuffer.getD idx.toNat F.nan) = true then
        let pw0 := bc0 * invW0
        let pw1 := bc1 * invW1
        let pw2 := bc2 * invW2
        let oneOverW := pw0 + pw1 + pw2
        if F.beq oneOverW (F.fin 0) then r
        else
          let invOneOverW := fq 1 / oneOverW
          let u := (pw0 * sv0.UV.X + pw1 * sv1.UV.X + pw2 * sv2.UV.X) * invOneOverW
          let v := (pw0 * sv0.UV.Y + pw1 * sv1.UV.Y + pw2 * sv2.UV.Y) * invOneOverW
          let intensity := (pw0 * i0 + pw1 * i1 + pw2 * i2) * invOneOverW
          let texColor := tex.Sample u v
          let litColor := MultiplyColor texColor intensity
          let r1 := { r with zbuffer := r.zbuffer.set idx.toNat z }
          { r1 with fb := r1.fb.SetPixel x y litColor }
      else r
    else r
  (r', w0 + A0, w1 + A1, w2 + A2)

/-- Outer (y) loop body of DrawTriangleTexturedOpt. -/
def texturedOptRow (invArea z0 z1 z2 : F) (sv0 sv1 sv2 : screenVertex)
    (invW0 invW1 invW2 i0 i1 i2 : F) (tex : Texture) (A0 A1 A2 B0 B1 B2 : F)
    (width : Nat) (minX maxX : Int) (acc : RState × F × F × F) (y : Int) : RState × F × F × F :=
  let r := acc.1
  let w0Row := acc.2.1
  let w1Row := acc.2.2.1
  let w2Row := acc.2.2.2
  let rowOffset := y * (width : Int)
  let inner := (intRange minX maxX).foldl
    (texturedOptInner invArea z0 z1 z2 sv0 sv1 sv2 invW0 invW1 invW2 i0 i1 i2 tex
      A0 A1 A2 rowOffset y)
    (r, w0Row, w1Row, w2Row)
  (inner.1, w0Row + B0, w1Row + B1, w2Row + B2)

/-- `Rasterizer.DrawTriangleTexturedOpt` (render/rasterizer_opt.go). -/
def RState.DrawTriangleTexturedOpt (sqrtF : F → F) (r : RState) (tri : Triangle)
    (tex : Texture) (lightDir : Vec3) : RState :=
  let normLight := lightDir.Normalize sqrtF
  let sv0 := projectVertex r tri.V0
  let sv1 := projectVertex r tri.V1
  let sv2 := projectVertex r tri.V2
  let i0 := gouraudIntensity tri.V0.Normal normLight
  let i1 := gouraudIntensity tri.V1.Normal normLight
  let i2 := gouraudIntensity tri.V2.Normal normLight
  if allBehind sv0 sv1 sv2 then r
  else
    let cross := screenCross sv0 sv1 sv2
    if F.ltb cross (F.fin 0) && !r.DisableBackfaceCulling then r
    else
      let bb := computeBBox r sv0 sv1 sv2
      let minX := bb.1
      let maxX := bb.2.1
      let minY := bb.2.2.1
      let maxY := bb.2.2.2
      if minX > maxX ∨ minY > maxY then r
      else
        let e0 := edgeCoeffs sv1.X sv1.Y sv2.X sv2.Y
        let e1 := edgeCoeffs sv2.X sv2.Y sv0.X sv0.Y
        let e2 := edgeCoeffs sv0.X sv0.Y sv1.X sv1.Y
        let area2 := cross
        if F.beq area2 (F.fin 0) then r
        else
          let invArea := fq 1 / area2
          let px := intF minX + fr 1 2
          let py := intF minY + fr 1 2
          let w0Row := edgeFunc e0.1 e0.2.1 e0.2.2 px py
          let w1Row := edgeFunc e1.1 e1.2.1 e1.2.2 px py
          let w2Row := edgeFunc e2.1 e2.2.1 e2.2.2 px py
          ((intRange minY maxY).foldl
            (texturedOptRow invArea sv0.Z sv1.Z sv2.Z sv0 sv1 sv2
              (invWOf sv0) (invWOf sv1) (invWOf sv2) i0 i1 i2 tex
              e0.1 e1.1 e2.1 e0.2.1 e1.2.1 e2.2.1 r.Width minX maxX)
            (r, w0Row, w1Row, w2Row)).1

/-! ### Mesh interface and frustum-culled mesh draws (rasterizer.go) -/

/-- A mesh as seen through the `MeshRenderer` interface; `Bounds` is `some`
exactly when the dynamic type also implements `BoundedMeshRenderer` (the
`mesh.(BoundedMeshRenderer)` type assertion succeeds). -/
structure MeshData where
  VertexCount : Nat
  TriangleCount : Nat
  GetVertex : Nat → Vec3 × Vec3 × Vec2
  GetFace : Nat → Nat × Nat × Nat
  Bounds : Option (Vec3 × Vec3)

namespace RState

/-- `Rasterizer.InvalidateFrustum`. -/
def InvalidateFrustum (r : RState) : RState := { r with frustumDirty := true }

/-- `Rasterizer.UpdateFrustum`: lazily re-extract from the camera's
view-projection matrix. -/
def UpdateFrustum (sqrtF : F → F) (r : RState) : RState :=
  if r.frustumDirty then
    { r with frustum := ExtractFrustum sqrtF r.viewProj, frustumDirty := false }
  else r

/-- `Rasterizer.ResetCullingStats`. -/
def ResetCullingStats (r : RState) : RState := { r with CullingStats := ⟨0, 0, 0⟩ }

/-- `Rasterizer.IsVisible` (returns the answer and the state with the
frustum reconciled). -/
def IsVisible (sqrtF : F → F) (r : RState) (worldBounds : AABB) : Bool × RState :=
  let r := r.UpdateFrustum sqrtF
  (r.frustum.IntersectsFrustum worldBounds, r)

/-- `Rasterizer.IsVisibleTransformed`. -/
def IsVisibleTransformed (sqrtF : F → F) (r : RState) (localBounds : AABB)
    (transform : Mat4) : Bool × RState :=
  r.IsVisible sqrtF (TransformAABB localBounds transform)

/-- `Rasterizer.tryFrustumCull`: returns (culled?, updated state).  Without
bounds nothing is counted; with bounds, MeshesTested is incremented and then
exactly one of MeshesCulled / MeshesDrawn. -/
def tryFrustumCull (sqrtF : F → F) (r : RState) (mesh : MeshData)
    (transform : Mat4) : Bool × RState :=
  match mesh.Bounds with
  | none => (false, r)
  | some (minBounds, maxBounds) =>
    let r := { r with CullingStats :=
      { r.CullingStats with MeshesTested := r.CullingStats.MeshesTested + 1 } }
    let vis := r.IsVisibleTransformed sqrtF ⟨minBounds, maxBounds⟩ transform
    if !vis.1 then
      (true, { vis.2 with CullingStats :=
        { vis.2.CullingStats with MeshesCulled := vis.2.CullingStats.MeshesCulled + 1 } })
    else
      (false, { vis.2 with CullingStats :=
        { vis.2.CullingStats with MeshesDrawn := vis.2.CullingStats.MeshesDrawn + 1 } })

/-- `Rasterizer.DrawMesh`: flat-lit path, light transformed into local space
by the inverse transform. -/
def DrawMesh (sqrtF : F → F) (r : RState) (mesh : MeshData) (transform : Mat4)
    (color : Color) (lightDir : Vec3) : RState :=
  let cull := r.tryFrustumCull sqrtF mesh transform
  if cull.1 then cull.2
  else
    let invTransform := transform.Inverse
    let localLight := (invTransform.MulVec3Dir lightDir).Normalize sqrtF
    (List.range mesh.TriangleCount).foldl
      (fun s i =>
        let face := mesh.GetFace i
        let p0 := (mesh.GetVertex face.1).1
        let p1 := (mesh.GetVertex face.2.1).1
        let p2 := (mesh.GetVertex face.2.2).1
        s.DrawTriangleLit sqrtF (transform.MulVec3 p0) (transform.MulVec3 p1)
          (transform.MulVec3 p2) color localLight)
      cull.2

/-- `Rasterizer.DrawMeshTextured`. -/
def DrawMeshTextured (sqrtF : F → F) (r : RState) (mesh : MeshData) (transform : Mat4)
    (tex : Texture) (lightDir : Vec3) : RState :=
  let cull := r.tryFrustumCull sqrtF mesh transform
  if cull.1 then cull.2
  else
    (List.range mesh.TriangleCount).foldl
      (fun s i =>
        let face := mesh.GetFace i
        let v0 := mesh.GetVertex face.1
        let v1 := mesh.GetVertex face.2.1
        let v2 := mesh.GetVertex face.2.2
        let tri : Triangle :=
          ⟨⟨transform.MulVec3 v0.1, (transform.MulVec3Dir v0.2.1).Normalize sqrtF, v0.2.2, RGB 255 255 255⟩,
           ⟨transform.MulVec3 v1.1, (transform.MulVec3Dir v1.2.1).Normalize sqrtF, v1.2.2, RGB 255 255 255⟩,
           ⟨transform.MulVec3 v2.1, (transform.MulVec3Dir v2.2.1).Normalize sqrtF, v2.2.2, RGB 255 255 255⟩⟩
        s.DrawTriangleTextured sqrtF tri tex lightDir)
      cull.2

/-- `Rasterizer.DrawMeshGouraud`. -/
def DrawMeshGouraud (sqrtF : F → F) (r : RState) (mesh : MeshData) (transform : Mat4)
    (color : Color) (lightDir : Vec3) : RState :=
  let cull := r.tryFrustumCull sqrtF mesh transform
  if cull.1 then cull.2
  else
    (List.range mesh.TriangleCount).foldl
      (fun s i =>
        let face := mesh.GetFace i
        let v0 := mesh.GetVertex face.1
        let v1 := mesh.GetVertex face.2.1
        let v2 := mesh.GetVertex face.2.2
        let tri : Triangle :=
          ⟨⟨transform.MulVec3 v0.1, (transform.MulVec3Dir v0.2.1).Normalize sqrtF, zeroV2, color⟩,
           ⟨transform.MulVec3 v1.1, (transform.MulVec3Dir v1.2.1).Normalize sqrtF, zeroV2, color⟩,
           ⟨transform.MulVec3 v2.1, (transform.MulVec3Dir v2.2.1).Normalize sqrtF, zeroV2, color⟩⟩
        s.DrawTriangleGouraud sqrtF tri lightDir)
      cull.2

/-- `Rasterizer.DrawMeshTexturedGouraud`. -/
def DrawMeshTexturedGouraud (sqrtF : F → F) (r : RState) (mesh : MeshData)
    (transform : Mat4) (tex : Texture) (lightDir : Vec3) : RState :=
  let cull := r.tryFrustumCull sqrtF mesh transform
  if cull.1 then cull.2
  else
    (List.range mesh.TriangleCount).foldl
      (fun s i =>
        let face := mesh.GetFace i
        let v0 := mesh.GetVertex face.1
        let v1 := mesh.GetVertex face.2.1
        let v2 := mesh.GetVertex face.2.2
        let tri : Triangle :=
          ⟨⟨transform.MulVec3 v0.1, (transform.MulVec3Dir v0.2.1).Normalize sqrtF, v0.2.2, RGB 255 255 255⟩,
           ⟨transform.MulVec3 v1.1, (transform.MulVec3Dir v1.2.1).Normalize sqrtF, v1.2.2, RGB 255 255 255⟩,
           ⟨transform.MulVec3 v2.1, (transform.MulVec3Dir v2.2.1).Normalize sqrtF, v2.2.2, RGB 255 255 255⟩⟩
        s.DrawTriangleTexturedGouraud sqrtF tri tex lightDir)
      cull.2

/-- `Rasterizer.DrawMeshGouraudOpt`. -/
def DrawMeshGouraudOpt (sqrtF : F → F) (r : RState) (mesh : MeshData) (transform : Mat4)
    (color : Color) (lightDir : Vec3) : RState :=
  let cull := r.tryFrustumCull sqrtF mesh transform
  if cull.1 then cull.2
  else
    (List.range mesh.TriangleCount).foldl
      (fun s i =>
        let face := mesh.GetFace i
        let v0 := mesh.GetVertex face.1
        let v1 := mesh.GetVertex face.2.1
        let v2 := mesh.GetVertex face.2.2
        let tri : Triangle :=
          ⟨⟨transform.MulVec3 v0.1, (transform.MulVec3Dir v0.2.1).Normalize sqrtF, zeroV2, color⟩,
           ⟨transform.MulVec3 v1.1, (transform.MulVec3Dir v1.2.1).Normalize sqrtF, zeroV2, color⟩,
           ⟨transform.MulVec3 v2.1, (transform.MulVec3Dir v2.2.1).Normalize sqrtF, zeroV2, color⟩⟩
        s.DrawTriangleGouraudOpt sqrtF tri lightDir)
      cull.2

/-- `Rasterizer.DrawMeshTexturedOpt`. -/
def DrawMeshTexturedOpt (sqrtF : F → F) (r : RState) (mesh : MeshData) (transform : Mat4)
    (tex : Texture) (lightDir : Vec3) : RState :=
  let cull := r.tryFrustumCull sqrtF mesh transform
  if cull.1 then cull.2
  else
    (List.range mesh.TriangleCount).foldl
      (fun s i =>
        let face := mesh.GetFace i
        let v0 := mesh.GetVertex face.1
        let v1 := mesh.GetVertex face.2.1
        let v2 := mesh.GetVertex face.2.2
        let tri : Triangle :=
          ⟨⟨transform.MulVec3 v0.1, (transform.MulVec3Dir v0.2.1).Normalize sqrtF, v0.2.2, RGB 255 255 255⟩,
           ⟨transform.MulVec3 v1.1, (transform.MulVec3Dir v1.2.1).Normalize sqrtF, v1.2.2, RGB 255 255 255⟩,
           ⟨transform.MulVec3 v2.1, (transform.MulVec3Dir v2.2.1).Normalize sqrtF, v2.2.2, RGB 255 255 255⟩⟩
        s.DrawTriangleTexturedOpt sqrtF tri tex lightDir)
      cull.2

/-- `Rasterizer.DrawMeshGouraudCulled`: explicit out-of-band bounds; counts
the mesh tested, then exactly one of culled/drawn. -/
def DrawMeshGouraudCulled (sqrtF : F → F) (r : RState) (mesh : MeshData)
    (transform : Mat4) (localBounds : AABB) (color : Color) (lightDir : Vec3) :
    Bool × RState :=
  let r := { r with CullingStats :=
    { r.CullingStats with MeshesTested := r.CullingStats.MeshesTested + 1 } }
  let vis := r.IsVisibleTransformed sqrtF localBounds transform
  if !vis.1 then
    (false, { vis.2 with CullingStats :=
      { vis.2.CullingStats with MeshesCulled := vis.2.CullingStats.MeshesCulled + 1 } })
  else
    let r2 := { vis.2 with CullingStats :=
      { vis.2.CullingStats with MeshesDrawn := vis.2.CullingStats.MeshesDrawn + 1 } }
    (true, r2.DrawMeshGouraud sqrtF mesh transform color lightDir)

/-- `Rasterizer.DrawMeshTexturedGouraudCulled`. -/
def DrawMeshTexturedGouraudCulled (sqrtF : F → F) (r : RState) (mesh : MeshData)
    (transform : Mat4) (localBounds : AABB) (tex : Texture) (lightDir : Vec3) :
    Bool × RState :=
  let r := { r with CullingStats :=
    { r.CullingStats with MeshesTested := r.CullingStats.MeshesTested + 1 } }
  let vis := r.IsVisibleTransformed sqrtF localBounds transform
  if !vis.1 then
    (false, { vis.2 with CullingStats :=
      { vis.2.CullingStats with MeshesCulled := vis.2.CullingStats.MeshesCulled + 1 } })
  else
    let r2 := { vis.2 with CullingStats :=
      { vis.2.CullingStats with MeshesDrawn := vis.2.CullingStats.MeshesDrawn + 1 } }
    (true, r2.DrawMeshTexturedGouraud sqrtF mesh transform tex lightDir)

/-- `Rasterizer.DrawMeshCulled`. -/
def DrawMeshCulled (sqrtF : F → F) (r : RState) (mesh : MeshData) (transform : Mat4)
    (localBounds : AABB) (color : Color) (lightDir : Vec3) : Bool × RState :=
  let r := { r with CullingStats :=
    { r.CullingStats with MeshesTested := r.CullingStats.MeshesTested + 1 } }
  let vis := r.IsVisibleTransformed sqrtF localBounds transform
  if !vis.1 then
    (false, { vis.2 with CullingStats :=
      { vis.2.CullingStats with MeshesCulled := vis.2.CullingStats.MeshesCulled + 1 } })
  else
    let r2 := { vis.2 with CullingStats :=
      { vis.2.CullingStats with MeshesDrawn := vis.2.CullingStats.MeshesDrawn + 1 } }
    (true, r2.DrawMesh sqrtF mesh transform color lightDir)

/-- `Rasterizer.DrawMeshTexturedCulled`. -/
def DrawMeshTexturedCulled (sqrtF : F → F) (r : RState) (mesh : MeshData)
    (transform : Mat4) (localBounds : AABB) (tex : Texture) (lightDir : Vec3) :
    Bool × RState :=
  let r := { r with CullingStats :=
    { r.CullingStats with MeshesTested := r.CullingStats.MeshesTested + 1 } }
  let vis := r.IsVisibleTransformed sqrtF localBounds transform
  if !vis.1 then
    (false, { vis.2 with CullingStats :=
      { vis.2.CullingStats with MeshesCulled := vis.2.CullingStats.MeshesCulled + 1 } })
  else
    let r2 := { vis.2 with CullingStats :=
      { vis.2.CullingStats with MeshesDrawn := vis.2.CullingStats.MeshesDrawn + 1 } }
    (true, r2.DrawMeshTextured sqrtF mesh transform tex lightDir)

/-- `Rasterizer.drawLine3D`: project both endpoints (skipping only when
both have w <= 0), divide by w per endpoint when positive, map to screen,
and draw through the framebuffer line routine (no depth test). -/
def drawLine3D (r : RState) (a b : Vec3) (color : Color) : RState :=
  let clipA := r.viewProj.MulVec4 (V4FromV3 a (fq 1))
  let clipB := r.viewProj.MulVec4 (V4FromV3 b (fq 1))
  if F.leb clipA.W (F.fin 0) && F.leb clipB.W (F.fin 0) then r
  else
    let ax := if F.gtb clipA.W (F.fin 0) then clipA.X / clipA.W else clipA.X
    let ay := if F.gtb clipA.W (F.fin 0) then clipA.Y / clipA.W else clipA.Y
    let bx := if F.gtb clipB.W (F.fin 0) then clipB.X / clipB.W else clipB.X
    let by0 := if F.gtb clipB.W (F.fin 0) then clipB.Y / clipB.W else clipB.Y
    let x0 := goInt ((ax + fq 1) * fr 1 2 * natF r.Width)
    let y0 := goInt ((fq 1 - ay) * fr 1 2 * natF r.Height)
    let x1 := goInt ((bx + fq 1) * fr 1 2 * natF r.Width)
    let y1 := goInt ((fq 1 - by0) * fr 1 2 * natF r.Height)
    { r with fb := r.fb.DrawLine x0 y0 x1 y1 color }

/-- `Rasterizer.DrawMeshWireframe`. -/
def DrawMeshWireframe (sqrtF : F → F) (r : RState) (mesh : MeshData)
    (transform : Mat4) (color : Color) : RState :=
  let cull := r.tryFrustumCull sqrtF mesh transform
  if cull.1 then cull.2
  else
    (List.range mesh.TriangleCount).foldl
      (fun s i =>
        let face := mesh.GetFace i
        let v0 := transform.MulVec3 (mesh.GetVertex face.1).1
        let v1 := transform.MulVec3 (mesh.GetVertex face.2.1).1
        let v2 := transform.MulVec3 (mesh.GetVertex face.2.2).1
        ((s.drawLine3D v0 v1 color).drawLine3D v1 v2 color).drawLine3D v2 v0 color)
      cull.2

end RState

/-! ### Camera with lazily cached matrices (render/camera.go) -/

/-- The all-zero matrix: the Go zero value of `Mat4` inside a fresh
`Camera`. -/
def zeroMat : Mat4 := List.replicate 16 (F.fin 0)

/-- `render.Camera`: position, Euler orientation, projection parameters and
the three cached matrices behind two dirty bits. -/
structure Camera where
  Position : Vec3
  Pitch : F
  Yaw : F
  Roll : F
  FOV : F
  AspectRatio : F
  Near : F
  Far : F
  viewMatrix : Mat4
  projMatrix : Mat4
  viewProjMatrix : Mat4
  viewDirty : Bool
  projDirty : Bool
deriving DecidableEq, Repr

/-- `NewCamera`: defaults, cached matrices at their zero values, both dirty
bits set. -/
def NewCamera (E : TrigEnv) : Camera :=
  { Position := V3 (fq 0) (fq 10) (fq 0)
    Pitch := fq 0, Yaw := fq 0, Roll := fq 0
    FOV := E.piF / fq 3
    AspectRatio := fq 16 / fq 9
    Near := fr 1 10
    Far := fq 1000
    viewMatrix := zeroMat, projMatrix := zeroMat, viewProjMatrix := zeroMat
    viewDirty := true, projDirty := true }

/-- `computeViewMatrix`:
`RotateZ(-roll) * RotateX(-pitch) * RotateY(-yaw) * Translate(-position)`. -/
def computeViewMatrix (E : TrigEnv) (c : Camera) : Mat4 :=
  let rot := ((RotateZ E (-c.Roll)).Mul (RotateX E (-c.Pitch))).Mul (RotateY E (-c.Yaw))
  let trans := Translate c.Position.Negate
  rot.Mul trans

/-- `computeProjectionMatrix`. -/
def computeProjectionMatrix (E : TrigEnv) (c : Camera) : Mat4 :=
  Perspective E c.FOV c.AspectRatio c.Near c.Far

namespace Camera

/-- `Camera.ViewMatrix` accessor: recompute and clear the bit when dirty. -/
def ViewMatrixM (E : TrigEnv) (c : Camera) : Mat4 × Camera :=
  if c.viewDirty then
    let m := computeViewMatrix E c
    (m, { c with viewMatrix := m, viewDirty := false })
  else (c.viewMatrix, c)

/-- `Camera.ProjectionMatrix` accessor. -/
def ProjectionMatrixM (E : TrigEnv) (c : Camera) : Mat4 × Camera :=
  if c.projDirty then
    let m := computeProjectionMatrix E c
    (m, { c with projMatrix := m, projDirty := false })
  else (c.projMatrix, c)

/-- `Camera.ViewProjectionMatrix` accessor: when either bit is set, call the
two accessors (which recompute only what is dirty) and rebuild the product;
otherwise return the cached combined matrix unchanged. -/
def ViewProjectionMatrixM (E : TrigEnv) (c : Camera) : Mat4 × Camera :=
  if c.viewDirty || c.projDirty then
    let c1 := (ViewMatrixM E c).2
    let c2 := (ProjectionMatrixM E c1).2
    let m := c2.projMatrix.Mul c2.viewMatrix
    (m, { c2 with viewProjMatrix := m })
  else (c.viewProjMatrix, c)

/-- `Camera.SetPosition`. -/
def SetPosition (c : Camera) (pos : Vec3) : Camera :=
  { c with Position := pos, viewDirty := true }

/-- `Camera.SetRotation`. -/
def SetRotation (c : Camera) (pitch yaw roll : F) : Camera :=
  { c with Pitch := pitch, Yaw := yaw, Roll := roll, viewDirty := true }

/-- `Camera.SetFOV`. -/
def SetFOV (c : Camera) (fov : F) : Camera :=
  { c with FOV := fov, projDirty := true }

/-- `Camera.SetAspectRatio`. -/
def SetAspectRatio (c : Camera) (aspect : F) : Camera :=
  { c with AspectRatio := aspect, projDirty := true }

/-- `Camera.SetClipPlanes`. -/
def SetClipPlanes (c : Camera) (near far : F) : Camera :=
  { c with Near := near, Far := far, projDirty := true }

/-- `Camera.Forward`. -/
def ForwardV (E : TrigEnv) (c : Camera) : Vec3 :=
  V3 (-(E.sinF c.Yaw) * E.cosF c.Pitch) (E.sinF c.Pitch) (-(E.cosF c.Yaw) * E.cosF c.Pitch)

/-- `Camera.Right`. -/
def RightV (E : TrigEnv) (c : Camera) : Vec3 :=
  V3 (E.cosF c.Yaw) (fq 0) (-(E.sinF c.Yaw))

/-- `Camera.MoveForward`. -/
def MoveForward (E : TrigEnv) (c : Camera) (distance : F) : Camera :=
  { c with Position := c.Position.Add ((ForwardV E c).Scale distance), viewDirty := true }

/-- `Camera.MoveRight`. -/
def MoveRight (E : TrigEnv) (c : Camera) (distance : F) : Camera :=
  { c with Position := c.Position.Add ((RightV E c).Scale distance), viewDirty := true }

/-- `Camera.MoveUp` (world up vector `math3d.Up()`). -/
def MoveUp (c : Camera) (distance : F) : Camera :=
  { c with Position := c.Position.Add ((V3 (fq 0) (fq 1) (fq 0)).Scale distance),
           viewDirty := true }

/-- `Camera.Rotate`: deltas, then pitch clamped to `pi/2 - 0.01`. -/
def Rotate (E : TrigEnv) (c : Camera) (deltaPitch deltaYaw deltaRoll : F) : Camera :=
  let maxPitch := E.piF / fq 2 - fr 1 100
  let p := c.Pitch + deltaPitch
  let p := if F.gtb p maxPitch then maxPitch else p
  let p := if F.ltb p (-maxPitch) then -maxPitch else p
  { c with Pitch := p, Yaw := c.Yaw + deltaYaw, Roll := c.Roll + deltaRoll,
           viewDirty := true }

/-- `Camera.LookAt`. -/
def LookAtT (E : TrigEnv) (c : Camera) (target : Vec3) : Camera :=
  let dir := (target.Sub c.Position).Normalize E.sqrtF
  { c with Pitch := E.asinF dir.Y, Yaw := E.atan2F (-dir.X) (-dir.Z), Roll := fq 0,
           viewDirty := true }

end Camera

/-- One camera mutator or accessor call. -/
inductive CamOp where
  | setPosition (pos : Vec3)
  | setRotation (pitch yaw roll : F)
  | setFOV (fov : F)
  | setAspectRatio (aspect : F)
  | setClipPlanes (near far : F)
  | moveForward (d : F)
  | moveRight (d : F)
  | moveUp (d : F)
  | rotate (dp dy dr : F)
  | lookAt (target : Vec3)
  | viewMatrix
  | projectionMatrix
  | viewProjectionMatrix

/-- The state change of one camera call (accessors return values are
dropped; only the cache effects remain). -/
def camStep (E : TrigEnv) (c : Camera) : CamOp → Camera
  | CamOp.setPosition pos => c.SetPosition pos
  | CamOp.setRotation p y r => c.SetRotation p y r
  | CamOp.setFOV fov => c.SetFOV fov
  | CamOp.setAspectRatio a => c.SetAspectRatio a
  | CamOp.setClipPlanes n f => c.SetClipPlanes n f
  | CamOp.moveForward d => Camera.MoveForward E c d
  | CamOp.moveRight d => Camera.MoveRight E c d
  | CamOp.moveUp d => c.MoveUp d
  | CamOp.rotate dp dy dr => Camera.Rotate E c dp dy dr
  | CamOp.lookAt t => Camera.LookAtT E c t
  | CamOp.viewMatrix => (Camera.ViewMatrixM E c).2
  | CamOp.projectionMatrix => (Camera.ProjectionMatrixM E c).2
  | CamOp.viewProjectionMatrix => (Camera.ViewProjectionMatrixM E c).2

/-- Run a sequence of camera calls from a starting state. -/
def camRun (E : TrigEnv) (c : Camera) (ops : List CamOp) : Camera :=
  ops.foldl (camStep E) c

/-! ### C3: ClearDepth -/

theorem goCopyWithin_length (buf : List F) (i : Nat) (h : i ≤ buf.length) :
    (goCopyWithin buf i).length = buf.length := by
  simp only [goCopyWithin, List.length_append, List.length_take, List.length_drop]
  omega

theorem goCopyWithin_getD (buf : List F) (i j : Nat) (hi : i ≤ buf.length) :
    (goCopyWithin buf i).getD j F.nan =
      (if j < i then buf.getD j F.nan
       else if j < min i (buf.length - i) + i then buf.getD (j - i) F.nan
       else buf.getD j F.nan) := by
  have hmi : min i buf.length = i := min_eq_left hi
  have hk1 : min i (buf.length - i) ≤ i := min_le_left _ _
  have hk2 : min i (buf.length - i) ≤ buf.length - i := min_le_right _ _
  have hmk : min (min i (buf.length - i)) buf.length = min i (buf.length - i) :=
    min_eq_left (by omega)
  simp only [goCopyWithin, List.append_assoc, List.getD_eq_getElem?_getD,
    List.getElem?_append, List.getElem?_take, List.getElem?_drop,
    List.length_take, hmi, hmk]
  rcases lt_or_le j i with hj | hj
  · rw [if_pos hj, if_pos hj, if_pos hj]
  · rw [if_neg (not_lt.mpr hj), if_neg (not_lt.mpr hj)]
    rcases lt_or_le j (min i (buf.length - i) + i) with hj2 | hj2
    · rw [if_pos (by omega), if_pos (by omega), if_pos hj2]
    · rw [if_neg (by omega), if_neg (by omega)]
      have hidx : i + i ⊓ (buf.length - i) + (j - i - i ⊓ (buf.length - i)) = j := by
        omega
      rw [hidx]

theorem clearLoop_length (fuel : Nat) :
    ∀ (buf : List F) (i : Nat), (clearLoop fuel buf i).length = buf.length := by
  induction fuel with
  | zero => intro buf i; rfl
  | succ fuel ih =>
    intro buf i
    simp only [clearLoop]
    by_cases hlt : i < buf.length
    · rw [if_pos hlt, ih, goCopyWithin_length buf i hlt.le]
    · rw [if_neg hlt]

theorem clearLoop_spec (fuel : Nat) :
    ∀ (buf : List F) (i : Nat), 1 ≤ i →
      (∀ j, j < min i buf.length → buf.getD j F.nan = maxFloat64) →
      buf.length ≤ fuel + i →
      ∀ j, j < buf.length → (clearLoop fuel buf i).getD j F.nan = maxFloat64 := by
  induction fuel with
  | zero =>
    intro buf i h1 hpre hfuel j hj
    simp only [clearLoop]
    exact hpre j (by omega)
  | succ fuel ih =>
    intro buf i h1 hpre hfuel j hj
    simp only [clearLoop]
    by_cases hlt : i < buf.length
    · rw [if_pos hlt]
      have hile : i ≤ buf.length := hlt.le
      have hlen : (goCopyWithin buf i).length = buf.length := goCopyWithin_length buf i hile
      refine ih (goCopyWithin buf i) (2 * i) (by omega) ?_ (by omega) j (by omega)
      intro k hk
      rw [hlen] at hk
      rw [goCopyWithin_getD buf i k hile]
      rcases lt_or_le k i with hki | hki
      · rw [if_pos hki]
        exact hpre k (by omega)
      · rw [if_neg (not_lt.mpr hki), if_pos (by omega)]
        exact hpre (k - i) (by omega)
    · rw [if_neg hlt]
      exact hpre j (by omega)

/-! Shared concrete fixtures: a 4x4 framebuffer, identity view-projection. -/

/-- Zero value of `Frustum` (six zero planes), used before extraction. -/
def zeroFrustum : Frustum := ⟨List.replicate 6 ⟨zeroV3, F.fin 0⟩⟩

/-- 4x4 black framebuffer. -/
def fbBlack4 : Framebuffer := ⟨4, 4, List.replicate 16 (RGB 0 0 0)⟩

/-- A rasterizer over the 4x4 framebuffer with identity view-projection and
a cleared depth buffer. -/
def baseState4 : RState :=
  { viewProj := Identity, fb := fbBlack4, zbuffer := List.replicate 16 maxFloat64,
    frustum := zeroFrustum, frustumDirty := true, CullingStats := ⟨0, 0, 0⟩,
    DisableBackfaceCulling := false }

/-- An identity square root: the only concrete square roots the witnesses
evaluate are of 0 and 1, where it agrees with `math.Sqrt`. -/
def idSqrt : F → F := fun x => x

/-- C3 (amended): after ClearDepth, every cell of the depth buffer equals
`math.MaxFloat64` (the largest finite double), not +Inf: the copy-doubling
fill writes `math.MaxFloat64` everywhere. -/
theorem C3_clearDepth_every_cell_maxFloat64 (r : RState) (i : Nat)
    (hi : i < r.zbuffer.length) :
    (r.ClearDepth).zbuffer.getD i F.nan = maxFloat64 := by
  unfold RState.ClearDepth
  rw [if_neg (by omega)]
  have hlen : (r.zbuffer.set 0 maxFloat64).length = r.zbuffer.length :=
    List.length_set r.zbuffer 0 maxFloat64
  refine clearLoop_spec r.zbuffer.length (r.zbuffer.set 0 maxFloat64) 1 le_rfl ?_
    (by rw [hlen]; omega) i (by rw [hlen]; omega)
  intro j hj
  have hj0 : j = 0 := by omega
  subst hj0
  have h0 : 0 < r.zbuffer.length := by omega
  simp [List.getD_eq_getElem?_getD, List.getElem?_set, h0]

/-- Witness: ClearDepth on a concrete two-cell depth buffer makes cell 1
equal to `math.MaxFloat64`. -/
theorem C3_clearDepth_witness :
    1 < (({ baseState4 with zbuffer := [F.fin 0, F.fin 5] } : RState)).zbuffer.length ∧
      (({ baseState4 with zbuffer := [F.fin 0, F.fin 5] } : RState)).ClearDepth.zbuffer.getD 1
          F.nan = maxFloat64 :=
  ⟨by decide,
   C3_clearDepth_every_cell_maxFloat64 { baseState4 with zbuffer := [F.fin 0, F.fin 5] } 1
     (by decide)⟩

/-- C3 counterexample: on a rasterizer with a non-empty depth buffer,
ClearDepth leaves cell 0 equal to `math.MaxFloat64`, which is a finite
double and not IEEE positive infinity, so "every cell equals +Inf" fails. -/
theorem C3_counterexample_cell_is_finite :
    (({ baseState4 with zbuffer := [F.fin 0, F.fin 5] } : RState)).ClearDepth.zbuffer.getD 0
        F.nan = maxFloat64 ∧ maxFloat64 ≠ F.inf true := by
  constructor
  · decide
  · decide

/-! ### C8: texture sampling invariance under integer UV translation -/

theorem wrapRepeat_shift (u : ℚ) (m : ℤ) :
    Texture.wrapCoord (F.fin u + intF m) WrapMode.WrapRepeat =
      Texture.wrapCoord (F.fin u) WrapMode.WrapRepeat := by
  simp only [Texture.wrapCoord, intF, fin_add, fin_ffloor, fin_sub]
  congr 1
  rw [Int.floor_add_int]
  push_cast
  ring

/-- C8 (confirmed): when both wrap modes are Repeat, any filter mode,
sampling is invariant under translating UV by integers (finite coordinates;
in the exact model every such translation is exactly representable). -/
theorem C8_sample_repeat_integer_translation (t : Texture)
    (hU : t.WrapU = WrapMode.WrapRepeat) (hV : t.WrapV = WrapMode.WrapRepeat)
    (u v : ℚ) (m n : ℤ) :
    t.Sample (F.fin u + intF m) (F.fin v + intF n) = t.Sample (F.fin u) (F.fin v) := by
  unfold Texture.Sample
  rw [hU, hV, wrapRepeat_shift, wrapRepeat_shift]

/-- A concrete 2x2 checker texture with Repeat wrap on both axes. -/
def texChecker : Texture :=
  ⟨2, 2, [RGB 255 255 255, RGB 0 0 0, RGB 0 0 0, RGB 255 255 255],
   WrapMode.WrapRepeat, WrapMode.WrapRepeat, FilterMode.FilterNearest⟩

/-- Witness for C8 at a concrete texture and concrete UV/integers. -/
theorem C8_sample_repeat_witness :
    texChecker.WrapU = WrapMode.WrapRepeat ∧
      texChecker.Sample (F.fin (1/8) + intF 1) (F.fin (1/8) + intF 2) =
        texChecker.Sample (F.fin (1/8)) (F.fin (1/8)) :=
  ⟨rfl, C8_sample_repeat_integer_translation texChecker rfl rfl (1/8) (1/8) 1 2⟩

/-! ### C4: lighting intensity formulas -/

/-- The intensity formula asserted by the spec:
`0.3 + 0.7 * max(0, normal . normalize(light_dir))`. -/
def specIntensity (sqrtF : F → F) (normal lightDir : Vec3) : F :=
  fr 3 10 + fr 7 10 * F.fmax (F.fin 0) (normal.Dot (lightDir.Normalize sqrtF))

/-- The face normal from world-space edges, as the spec describes it for
the flat paths. -/
def specFaceNormal (sqrtF : F → F) (v0 v1 v2 : Vec3) : Vec3 :=
  ((v1.Sub v0).Cross (v2.Sub v0)).Normalize sqrtF

/-- C4 (amended): the Gouraud paths (DrawTriangleGouraud,
DrawTriangleTexturedGouraud and the Opt variants) apply the spec's
intensity to the per-vertex normal, and DrawTriangleLit applies it to the
face normal from world-space edges; DrawTriangleTextured instead clamps the
diffuse term at 0.2: it applies `0.3 + 0.7 * max(0.2, faceNormal .
normalize(lightDir))`. -/
theorem C4_intensity_formulas (sqrtF : F → F) (tri : Triangle) (lightDir : Vec3)
    (v0 v1 v2 : Vec3) :
    (gouraudIntensity tri.V0.Normal (lightDir.Normalize sqrtF)
        = specIntensity sqrtF tri.V0.Normal lightDir) ∧
    (litFaceIntensity sqrtF v0 v1 v2 lightDir
        = specIntensity sqrtF (specFaceNormal sqrtF v0 v1 v2) lightDir) ∧
    (texturedFaceIntensity sqrtF tri lightDir
        = fr 3 10 + fr 7 10 * F.fmax (fr 1 5)
            ((specFaceNormal sqrtF tri.V0.Position tri.V1.Position
              tri.V2.Position).Dot (lightDir.Normalize sqrtF))) := by
  refine ⟨rfl, rfl, ?_⟩
  rfl

/-- A triangle in the xy-plane with a perpendicular light, used to exhibit
the 0.2 clamp. -/
def triC4 : Triangle :=
  ⟨⟨⟨F.fin 0, F.fin 0, F.fin 0⟩, zeroV3, zeroV2, RGB 255 255 255⟩,
   ⟨⟨F.fin 1, F.fin 0, F.fin 0⟩, zeroV3, zeroV2, RGB 255 255 255⟩,
   ⟨⟨F.fin 0, F.fin 1, F.fin 0⟩, zeroV3, zeroV2, RGB 255 255 255⟩⟩

/-- C4 counterexample: for the triangle `triC4` (face normal (0,0,1)) and
light direction (1,0,0), DrawTriangleTextured's applied intensity is
0.3 + 0.7*0.2 = 11/25, while the claimed formula gives 0.3 — the two
differ, so the claim fails for the textured flat path. -/
theorem C4_counterexample_textured_clamp :
    texturedFaceIntensity idSqrt triC4 ⟨F.fin 1, F.fin 0, F.fin 0⟩ = F.fin (qmk 11 25) ∧
    specIntensity idSqrt (specFaceNormal idSqrt triC4.V0.Position triC4.V1.Position
        triC4.V2.Position) ⟨F.fin 1, F.fin 0, F.fin 0⟩ = F.fin (qmk 3 10) ∧
    F.fin (qmk 11 25) ≠ F.fin (qmk 3 10) := by
  refine ⟨by decide, by decide, by decide⟩

/-! ### C6: IntersectAABB has no false negatives -/

/-- The rational carried by a finite double (0 for specials). -/
def F.toQ : F → ℚ
  | F.fin a => a
  | _ => 0

theorem isFin_exists (x : F) (h : x.isFin = true) : ∃ a, x = F.fin a := by
  cases x with
  | nan => simp [F.isFin] at h
  | inf s => simp [F.isFin] at h
  | fin a => exact ⟨a, rfl⟩

theorem selectComponent_fin (n a b : ℚ) :
    selectComponent (F.geb (F.fin n) (F.fin 0)) (F.fin a) (F.fin b)
      = F.fin (if 0 ≤ n then a else b) := by
  by_cases h : 0 ≤ n
  · simp [selectComponent, fin_geb, h]
  · simp [selectComponent, fin_geb, h]

theorem select_ge (n lo hi t : ℚ) (hlo : lo ≤ t) (hhi : t ≤ hi) :
    n * t ≤ n * (if 0 ≤ n then hi else lo) := by
  by_cases h : 0 ≤ n
  · rw [if_pos h]
    exact mul_le_mul_of_nonneg_left hhi h
  · rw [if_neg h]
    exact mul_le_mul_of_nonpos_left hlo (le_of_not_le h)

/-- C6 (confirmed): for a frustum with finite plane data and an AABB with
finite corners, if some point of the AABB lies inside all planes
(`normal . p + d >= 0` for each), then IntersectAABB returns true: the
positive-vertex test cannot produce a false negative. -/
theorem C6_intersectAABB_no_false_negative (f : Frustum) (box : AABB)
    (hfin : ∀ p ∈ f.Planes,
      p.Normal.X.isFin = true ∧ p.Normal.Y.isFin = true ∧
        p.Normal.Z.isFin = true ∧ p.D.isFin = true)
    (hboxfin : box.Min.X.isFin = true ∧ box.Min.Y.isFin = true ∧
      box.Min.Z.isFin = true ∧ box.Max.X.isFin = true ∧
      box.Max.Y.isFin = true ∧ box.Max.Z.isFin = true)
    (px py pz : ℚ)
    (hinx : box.Min.X.toQ ≤ px ∧ px ≤ box.Max.X.toQ)
    (hiny : box.Min.Y.toQ ≤ py ∧ py ≤ box.Max.Y.toQ)
    (hinz : box.Min.Z.toQ ≤ pz ∧ pz ≤ box.Max.Z.toQ)
    (hplanes : ∀ p ∈ f.Planes,
      0 ≤ p.Normal.X.toQ * px + p.Normal.Y.toQ * py + p.Normal.Z.toQ * pz + p.D.toQ) :
    f.IntersectAABB box = true := by
  rw [Frustum.IntersectAABB, List.all_eq_true]
  intro p hp
  obtain ⟨nx, hnx⟩ := isFin_exists _ (hfin p hp).1
  obtain ⟨ny, hny⟩ := isFin_exists _ (hfin p hp).2.1
  obtain ⟨nz, hnz⟩ := isFin_exists _ (hfin p hp).2.2.1
  obtain ⟨dd, hdd⟩ := isFin_exists _ (hfin p hp).2.2.2
  obtain ⟨ax, hax⟩ := isFin_exists _ hboxfin.1
  obtain ⟨ay, hay⟩ := isFin_exists _ hboxfin.2.1
  obtain ⟨az, haz⟩ := isFin_exists _ hboxfin.2.2.1
  obtain ⟨bx, hbx⟩ := isFin_exists _ hboxfin.2.2.2.1
  obtain ⟨by', hby⟩ := isFin_exists _ hboxfin.2.2.2.2.1
  obtain ⟨bz, hbz⟩ := isFin_exists _ hboxfin.2.2.2.2.2
  have hq := hplanes p hp
  rw [hnx, hny, hnz, hdd] at hq
  simp only [F.toQ] at hq
  rw [hax, hbx] at hinx
  rw [hay, hby] at hiny
  rw [haz, hbz] at hinz
  simp only [F.toQ] at hinx hiny hinz
  simp only [hnx, hny, hnz, hdd, hax, hay, haz, hbx, hby, hbz,
    selectComponent_fin, Plane.DistanceToPoint, Vec3.Dot, fin_mul, fin_add, fin_ltb]
  rw [Bool.not_eq_eq_eq_not]
  simp only [Bool.not_true, decide_eq_false_iff_not, not_lt]
  have gx := select_ge nx ax bx px hinx.1 hinx.2
  have gy := select_ge ny ay by' py hiny.1 hiny.2
  have gz := select_ge nz az bz pz hinz.1 hinz.2
  linarith

/-- A concrete frustum (the half-space z >= 0 six times) and the unit box,
witnessing C6. -/
def frusC6 : Frustum :=
  ⟨List.replicate 6 ⟨⟨F.fin 0, F.fin 0, F.fin 1⟩, F.fin 0⟩⟩

/-- Witness for C6: the box [-1,1]^3 contains the inside point (0,0,0), and
IntersectAABB indeed returns true. -/
theorem C6_intersectAABB_witness :
    frusC6.IntersectAABB ⟨⟨F.fin (-1), F.fin (-1), F.fin (-1)⟩,
      ⟨F.fin 1, F.fin 1, F.fin 1⟩⟩ = true :=
  C6_intersectAABB_no_false_negative frusC6
    ⟨⟨F.fin (-1), F.fin (-1), F.fin (-1)⟩, ⟨F.fin 1, F.fin 1, F.fin 1⟩⟩
    (by decide) (by decide) 0 0 0 (by decide) (by decide) (by decide)
    (by
      intro p hp
      rw [List.eq_of_mem_replicate hp]
      norm_num [F.toQ])

/-! ### C1/C2 fixtures: concrete triangles over the 4x4 state -/

/-- Vertex helper for concrete triangles (zero normal and UV). -/
def mkV (x y z : ℚ) (c : Color) : Vertex :=
  ⟨⟨F.fin x, F.fin y, F.fin z⟩, zeroV3, zeroV2, c⟩

/-- A front-facing (clockwise on screen) red triangle given in NDC; with
the identity view-projection it covers pixels (1,1) and (2,1) of the 4x4
framebuffer. -/
def triFwd : Triangle :=
  ⟨mkV (qmk (-1) 2) (qmk 1 2) 0 (RGB 255 0 0), mkV (qmk 1 2) (qmk 1 2) 0 (RGB 255 0 0),
   mkV 0 (qmk (-1) 2) 0 (RGB 255 0 0)⟩

/-- The vertex-reversed (counter-clockwise) copy of `triFwd`. -/
def triRev : Triangle :=
  ⟨mkV (qmk (-1) 2) (qmk 1 2) 0 (RGB 255 0 0), mkV 0 (qmk (-1) 2) 0 (RGB 255 0 0),
   mkV (qmk 1 2) (qmk 1 2) 0 (RGB 255 0 0)⟩

/-- A degenerate triangle: all three vertices at the NDC origin, which
lands on pixel (2,2) (depth index 10) of the 4x4 framebuffer. -/
def triDeg : Triangle :=
  ⟨mkV 0 0 0 (RGB 255 0 0), mkV 0 0 0 (RGB 255 0 0), mkV 0 0 0 (RGB 255 0 0)⟩

/-- `baseState4` with `DisableBackfaceCulling = true`. -/
def stateNBC : RState := { baseState4 with DisableBackfaceCulling := true }

/-- The light direction (0,0,1). -/
def lightZ : Vec3 := ⟨F.fin 0, F.fin 0, F.fin 1⟩

/-! ### C1: DisableBackfaceCulling does not render back faces -/

/-- C1 (code bug): with `DisableBackfaceCulling = true`, (i) DrawTriangle
still discards the vertex-reversed (cross < 0) copy of a visible triangle —
the non-Opt paths never consult the flag; (ii) even DrawTriangleGouraudOpt,
which does consult the flag, draws nothing for the reversed copy (its
coverage test `w0, w1, w2 >= 0` cannot hold anywhere since
w0+w1+w2 = cross < 0); while (iii) the forward copy is visible and writes
the shared pixel (2,1).  This contradicts the field's own documentation
("If true, render both sides of triangles") and the claim. -/
theorem C1_backface_flag_ignored :
    RState.DrawTriangle stateNBC triRev = stateNBC ∧
    RState.DrawTriangleGouraudOpt idSqrt stateNBC triRev lightZ = stateNBC ∧
    (RState.DrawTriangle stateNBC triFwd).fb.Pixels.getD 6 ⟨0, 0, 0, 0⟩ = RGB 255 0 0 :=
  ⟨by decide, by decide, by decide⟩

/-! ### C2: zero-screen-area triangles -/

/-- C2 counterexample: the degenerate triangle `triDeg` has screen cross 0,
yet DrawTriangle writes a NaN into its pixel's depth cell (which held
`math.MaxFloat64`): the NaN barycentrics pass the sign checks and the NaN
depth passes the `z >= depth` rejection test, so the claim's "writes no
values to the depth buffer" fails for the non-Opt paths. -/
theorem C2_counterexample_degenerate_writes_depth :
    screenCross (projectVertex baseState4 triDeg.V0) (projectVertex baseState4 triDeg.V1)
        (projectVertex baseState4 triDeg.V2) = F.fin 0 ∧
    baseState4.zbuffer.getD 10 F.nan = maxFloat64 ∧
    (RState.DrawTriangle baseState4 triDeg).zbuffer.getD 10 F.nan = F.nan :=
  ⟨by decide, by decide, by decide⟩

theorem screenCross_color (a b c : screenVertex) (x y z : Color) :
    screenCross { a with Color := x } { b with Color := y } { c with Color := z }
      = screenCross a b c := rfl

theorem allBehind_color (a b c : screenVertex) (x y z : Color) :
    allBehind { a with Color := x } { b with Color := y } { c with Color := z }
      = allBehind a b c := rfl

theorem computeBBox_color (r : RState) (a b c : screenVertex) (x y z : Color) :
    computeBBox r { a with Color := x } { b with Color := y } { c with Color := z }
      = computeBBox r a b c := rfl

/-- C2 (amended): the Opt draw operations do skip a zero-screen-area
triangle without writing anything (`area2 == 0` guard); the non-Opt
operations lack that guard and can write NaN depths (see the
counterexample). -/
theorem C2_opt_zero_area_skips (sqrtF : F → F) (r : RState) (tri : Triangle)
    (lightDir : Vec3) (tex : Texture)
    (h : screenCross (projectVertex r tri.V0) (projectVertex r tri.V1)
        (projectVertex r tri.V2) = F.fin 0) :
    RState.DrawTriangleGouraudOpt sqrtF r tri lightDir = r ∧
    RState.DrawTriangleTexturedOpt sqrtF r tri tex lightDir = r := by
  have hltb : F.ltb (F.fin 0) (F.fin 0) = false := by decide
  have hbeq : F.beq (F.fin 0) (F.fin 0) = true := by decide
  constructor
  · unfold RState.DrawTriangleGouraudOpt
    simp only [screenCross_color, allBehind_color, computeBBox_color, h, hltb, hbeq,
      Bool.false_and, if_true, if_false, Bool.false_eq_true, ite_self]
  · unfold RState.DrawTriangleTexturedOpt
    simp only [h, hltb, hbeq, Bool.false_and, if_true, if_false, Bool.false_eq_true, ite_self]

/-- Witness for the amended C2 at the concrete degenerate triangle. -/
theorem C2_opt_zero_area_witness :
    screenCross (projectVertex baseState4 triDeg.V0) (projectVertex baseState4 triDeg.V1)
        (projectVertex baseState4 triDeg.V2) = F.fin 0 ∧
      RState.DrawTriangleGouraudOpt idSqrt baseState4 triDeg lightZ = baseState4 :=
  ⟨by decide,
   (C2_opt_zero_area_skips idSqrt baseState4 triDeg lightZ texChecker (by decide)).1⟩

/-! ### C9: culling statistics invariant -/

/-- The invariant: every tested mesh was counted as culled or drawn. -/
def statsInv (s : RState) : Prop :=
  s.CullingStats.MeshesTested = s.CullingStats.MeshesCulled + s.CullingStats.MeshesDrawn

theorem foldl_rstate_stats {α : Type} (f : RState → α → RState)
    (h : ∀ s a, (f s a).CullingStats = s.CullingStats) :
    ∀ (L : List α) (s : RState), (L.foldl f s).CullingStats = s.CullingStats := by
  intro L
  induction L with
  | nil => intro s; rfl
  | cons a L ih => intro s; rw [List.foldl_cons, ih, h]

theorem foldl_acc_stats {α : Type} (f : RState × F × F × F → α → RState × F × F × F)
    (h : ∀ acc a, (f acc a).1.CullingStats = acc.1.CullingStats) :
    ∀ (L : List α) acc, (L.foldl f acc).1.CullingStats = acc.1.CullingStats := by
  intro L
  induction L with
  | nil => intro acc; rfl
  | cons a L ih => intro acc; rw [List.foldl_cons, ih, h]

theorem drawTrianglePixel_stats (sv0 sv1 sv2 : screenVertex) (r : RState) (p : Int × Int) :
    (drawTrianglePixel sv0 sv1 sv2 r p).CullingStats = r.CullingStats := by
  unfold drawTrianglePixel RState.setDepth
  dsimp only
  split
  · rfl
  · split
    · rfl
    · split <;> rfl

theorem drawTexturedPixel_stats (sv0 sv1 sv2 : screenVertex) (w0 w1 w2 : F)
    (tex : Texture) (i : F) (r : RState) (p : Int × Int) :
    (drawTexturedPixel sv0 sv1 sv2 w0 w1 w2 tex i r p).CullingStats = r.CullingStats := by
  unfold drawTexturedPixel RState.setDepth
  dsimp only
  split
  · rfl
  · split
    · rfl
    · split
      · rfl
      · split <;> rfl

theorem drawTexturedGouraudPixel_stats (sv0 sv1 sv2 : screenVertex) (w0 w1 w2 : F)
    (tex : Texture) (i0 i1 i2 : F) (r : RState) (p : Int × Int) :
    (drawTexturedGouraudPixel sv0 sv1 sv2 w0 w1 w2 tex i0 i1 i2 r p).CullingStats
      = r.CullingStats := by
  unfold drawTexturedGouraudPixel RState.setDepth
  dsimp only
  split
  · rfl
  · split
    · rfl
    · split
      · rfl
      · split <;> rfl

theorem gouraudOptInner_stats (invArea z0 z1 z2 : F) (c0 c1 c2 : Color) (A0 A1 A2 : F)
    (rowOffset y : Int) (acc : RState × F × F × F) (x : Int) :
    (gouraudOptInner invArea z0 z1 z2 c0 c1 c2 A0 A1 A2 rowOffset y acc x).1.CullingStats
      = acc.1.CullingStats := by
  unfold gouraudOptInner
  dsimp only
  split
  · split <;> rfl
  · rfl

theorem texturedOptInner_stats (invArea z0 z1 z2 : F) (sv0 sv1 sv2 : screenVertex)
    (invW0 invW1 invW2 i0 i1 i2 : F) (tex : Texture) (A0 A1 A2 : F)
    (rowOffset y : Int) (acc : RState × F × F × F) (x : Int) :
    (texturedOptInner invArea z0 z1 z2 sv0 sv1 sv2 invW0 invW1 invW2 i0 i1 i2 tex
        A0 A1 A2 rowOffset y acc x).1.CullingStats = acc.1.CullingStats := by
  unfold texturedOptInner
  dsimp only
  split
  · split
    · split <;> rfl
    · rfl
  · rfl

theorem gouraudOptRow_stats (invArea z0 z1 z2 : F) (c0 c1 c2 : Color)
    (A0 A1 A2 B0 B1 B2 : F) (width : Nat) (minX maxX : Int)
    (acc : RState × F × F × F) (y : Int) :
    (gouraudOptRow invArea z0 z1 z2 c0 c1 c2 A0 A1 A2 B0 B1 B2 width minX maxX
        acc y).1.CullingStats = acc.1.CullingStats := by
  unfold gouraudOptRow
  dsimp only
  exact foldl_acc_stats _ (fun acc a => by apply gouraudOptInner_stats) _ _

theorem texturedOptRow_stats (invArea z0 z1 z2 : F) (sv0 sv1 sv2 : screenVertex)
    (invW0 invW1 invW2 i0 i1 i2 : F) (tex : Texture) (A0 A1 A2 B0 B1 B2 : F)
    (width : Nat) (minX maxX : Int) (acc : RState × F × F × F) (y : Int) :
    (texturedOptRow invArea z0 z1 z2 sv0 sv1 sv2 invW0 invW1 invW2 i0 i1 i2 tex
        A0 A1 A2 B0 B1 B2 width minX maxX acc y).1.CullingStats = acc.1.CullingStats := by
  unfold texturedOptRow
  dsimp only
  exact foldl_acc_stats _ (fun acc a => by apply texturedOptInner_stats) _ _

theorem drawTriangle_stats (r : RState) (tri : Triangle) :
    (r.DrawTriangle tri).CullingStats = r.CullingStats := by
  unfold RState.DrawTriangle
  dsimp only
  split
  · rfl
  · split
    · rfl
    · exact foldl_rstate_stats _ (drawTrianglePixel_stats _ _ _) _ _

theorem drawTriangleGouraud_stats (sqrtF : F → F) (r : RState) (tri : Triangle)
    (lightDir : Vec3) :
    (RState.DrawTriangleGouraud sqrtF r tri lightDir).CullingStats = r.CullingStats := by
  unfold RState.DrawTriangleGouraud
  dsimp only
  split
  · rfl
  · split
    · rfl
    · exact foldl_rstate_stats _ (drawTrianglePixel_stats _ _ _) _ _

theorem drawTriangleTextured_stats (sqrtF : F → F) (r : RState) (tri : Triangle)
    (tex : Texture) (lightDir : Vec3) :
    (RState.DrawTriangleTextured sqrtF r tri tex lightDir).CullingStats = r.CullingStats := by
  unfold RState.DrawTriangleTextured
  dsimp only
  split
  · rfl
  · split
    · rfl
    · exact foldl_rstate_stats _ (fun s a => by apply drawTexturedPixel_stats) _ _

theorem drawTriangleTexturedGouraud_stats (sqrtF : F → F) (r : RState) (tri : Triangle)
    (tex : Texture) (lightDir : Vec3) :
    (RState.DrawTriangleTexturedGouraud sqrtF r tri tex lightDir).CullingStats
      = r.CullingStats := by
  unfold RState.DrawTriangleTexturedGouraud
  dsimp only
  split
  · rfl
  · split
    · rfl
    · exact foldl_rstate_stats _ (fun s a => by apply drawTexturedGouraudPixel_stats) _ _

theorem drawTriangleGouraudOpt_stats (sqrtF : F → F) (r : RState) (tri : Triangle)
    (lightDir : Vec3) :
    (RState.DrawTriangleGouraudOpt sqrtF r tri lightDir).CullingStats = r.CullingStats := by
  unfold RState.DrawTriangleGouraudOpt
  dsimp only
  split
  · rfl
  · split
    · rfl
    · split
      · rfl
      · split
        · rfl
        · exact foldl_acc_stats _ (fun acc a => by apply gouraudOptRow_stats) _ _

theorem drawTriangleTexturedOpt_stats (sqrtF : F → F) (r : RState) (tri : Triangle)
    (tex : Texture) (lightDir : Vec3) :
    (RState.DrawTriangleTexturedOpt sqrtF r tri tex lightDir).CullingStats
      = r.CullingStats := by
  unfold RState.DrawTriangleTexturedOpt
  dsimp only
  split
  · rfl
  · split
    · rfl
    · split
      · rfl
      · split
        · rfl
        · exact foldl_acc_stats _ (fun acc a => by apply texturedOptRow_stats) _ _

theorem drawTriangleLit_stats (sqrtF : F → F) (r : RState) (v0 v1 v2 : Vec3)
    (c : Color) (lightDir : Vec3) :
    (RState.DrawTriangleLit sqrtF r v0 v1 v2 c lightDir).CullingStats = r.CullingStats := by
  unfold RState.DrawTriangleLit RState.DrawTriangleFlat
  exact drawTriangle_stats _ _

theorem drawLine3D_stats (r : RState) (a b : Vec3) (c : Color) :
    (r.drawLine3D a b c).CullingStats = r.CullingStats := by
  unfold RState.drawLine3D
  dsimp only
  split <;> rfl

theorem updateFrustum_stats (sqrtF : F → F) (r : RState) :
    (r.UpdateFrustum sqrtF).CullingStats = r.CullingStats := by
  unfold RState.UpdateFrustum
  split <;> rfl

theorem isVisibleTransformed_stats (sqrtF : F → F) (r : RState) (lb : AABB) (m : Mat4) :
    (r.IsVisibleTransformed sqrtF lb m).2.CullingStats = r.CullingStats := by
  unfold RState.IsVisibleTransformed RState.IsVisible
  dsimp only
  exact updateFrustum_stats sqrtF r

theorem tryFrustumCull_inv (sqrtF : F → F) (r : RState) (mesh : MeshData) (m : Mat4)
    (h : statsInv r) : statsInv (r.tryFrustumCull sqrtF mesh m).2 := by
  unfold RState.tryFrustumCull
  dsimp only
  cases hb : mesh.Bounds with
  | none => exact h
  | some bounds =>
    simp only [statsInv] at h ⊢
    split
    · simp only [CullingStats.mk.injEq]
      rw [isVisibleTransformed_stats]
      simp only []
      omega
    · rw [isVisibleTransformed_stats]
      simp only []
      omega

theorem statsInv_congr {s t : RState} (he : s.CullingStats = t.CullingStats)
    (h : statsInv t) : statsInv s := by
  unfold statsInv at h ⊢
  rw [he]
  exact h

theorem drawMesh_inv (sqrtF : F → F) (r : RState) (mesh : MeshData) (m : Mat4)
    (c : Color) (l : Vec3) (h : statsInv r) :
    statsInv (RState.DrawMesh sqrtF r mesh m c l) := by
  unfold RState.DrawMesh
  dsimp only
  split
  · exact tryFrustumCull_inv sqrtF r mesh m h
  · exact statsInv_congr
      (foldl_rstate_stats _ (fun s a => by apply drawTriangleLit_stats) _ _)
      (tryFrustumCull_inv sqrtF r mesh m h)

theorem drawMeshTextured_inv (sqrtF : F → F) (r : RState) (mesh : MeshData) (m : Mat4)
    (tex : Texture) (l : Vec3) (h : statsInv r) :
    statsInv (RState.DrawMeshTextured sqrtF r mesh m tex l) := by
  unfold RState.DrawMeshTextured
  dsimp only
  split
  · exact tryFrustumCull_inv sqrtF r mesh m h
  · exact statsInv_congr
      (foldl_rstate_stats _ (fun s a => by apply drawTriangleTextured_stats) _ _)
      (tryFrustumCull_inv sqrtF r mesh m h)

theorem drawMeshGouraud_inv (sqrtF : F → F) (r : RState) (mesh : MeshData) (m : Mat4)
    (c : Color) (l : Vec3) (h : statsInv r) :
    statsInv (RState.DrawMeshGouraud sqrtF r mesh m c l) := by
  unfold RState.DrawMeshGouraud
  dsimp only
  split
  · exact tryFrustumCull_inv sqrtF r mesh m h
  · exact statsInv_congr
      (foldl_rstate_stats _ (fun s a => by apply drawTriangleGouraud_stats) _ _)
      (tryFrustumCull_inv sqrtF r mesh m h)

theorem drawMeshTexturedGouraud_inv (sqrtF : F → F) (r : RState) (mesh : MeshData)
    (m : Mat4) (tex : Texture) (l : Vec3) (h : statsInv r) :
    statsInv (RState.DrawMeshTexturedGouraud sqrtF r mesh m tex l) := by
  unfold RState.DrawMeshTexturedGouraud
  dsimp only
  split
  · exact tryFrustumCull_inv sqrtF r mesh m h
  · exact statsInv_congr
      (foldl_rstate_stats _ (fun s a => by apply drawTriangleTexturedGouraud_stats) _ _)
      (tryFrustumCull_inv sqrtF r mesh m h)

theorem drawMeshGouraudOpt_inv (sqrtF : F → F) (r : RState) (mesh : MeshData) (m : Mat4)
    (c : Color) (l : Vec3) (h : statsInv r) :
    statsInv (RState.DrawMeshGouraudOpt sqrtF r mesh m c l) := by
  unfold RState.DrawMeshGouraudOpt
  dsimp only
  split
  · exact tryFrustumCull_inv sqrtF r mesh m h
  · exact statsInv_congr
      (foldl_rstate_stats _ (fun s a => by apply drawTriangleGouraudOpt_stats) _ _)
      (tryFrustumCull_inv sqrtF r mesh m h)

theorem drawMeshTexturedOpt_inv (sqrtF : F → F) (r : RState) (mesh : MeshData) (m : Mat4)
    (tex : Texture) (l : Vec3) (h : statsInv r) :
    statsInv (RState.DrawMeshTexturedOpt sqrtF r mesh m tex l) := by
  unfold RState.DrawMeshTexturedOpt
  dsimp only
  split
  · exact tryFrustumCull_inv sqrtF r mesh m h
  · exact statsInv_congr
      (foldl_rstate_stats _ (fun s a => by apply drawTriangleTexturedOpt_stats) _ _)
      (tryFrustumCull_inv sqrtF r mesh m h)

theorem drawMeshWireframe_inv (sqrtF : F → F) (r : RState) (mesh : MeshData) (m : Mat4)
    (c : Color) (h : statsInv r) :
    statsInv (RState.DrawMeshWireframe sqrtF r mesh m c) := by
  unfold RState.DrawMeshWireframe
  dsimp only
  split
  · exact tryFrustumCull_inv sqrtF r mesh m h
  · refine statsInv_congr (foldl_rstate_stats _ (fun s a => ?_) _ _)
      (tryFrustumCull_inv sqrtF r mesh m h)
    rw [drawLine3D_stats, drawLine3D_stats, drawLine3D_stats]

theorem drawMeshGouraudCulled_inv (sqrtF : F → F) (r : RState) (mesh : MeshData)
    (m : Mat4) (lb : AABB) (c : Color) (l : Vec3) (h : statsInv r) :
    statsInv (RState.DrawMeshGouraudCulled sqrtF r mesh m lb c l).2 := by
  unfold RState.DrawMeshGouraudCulled
  dsimp only
  split
  · unfold statsInv at h ⊢
    rw [isVisibleTransformed_stats]
    simp only []
    omega
  · apply drawMeshGouraud_inv
    unfold statsInv at h ⊢
    rw [isVisibleTransformed_stats]
    simp only []
    omega

theorem drawMeshTexturedGouraudCulled_inv (sqrtF : F → F) (r : RState) (mesh : MeshData)
    (m : Mat4) (lb : AABB) (tex : Texture) (l : Vec3) (h : statsInv r) :
    statsInv (RState.DrawMeshTexturedGouraudCulled sqrtF r mesh m lb tex l).2 := by
  unfold RState.DrawMeshTexturedGouraudCulled
  dsimp only
  split
  · unfold statsInv at h ⊢
    rw [isVisibleTransformed_stats]
    simp only []
    omega
  · apply drawMeshTexturedGouraud_inv
    unfold statsInv at h ⊢
    rw [isVisibleTransformed_stats]
    simp only []
    omega

theorem drawMeshCulled_inv (sqrtF : F → F) (r : RState) (mesh : MeshData)
    (m : Mat4) (lb : AABB) (c : Color) (l : Vec3) (h : statsInv r) :
    statsInv (RState.DrawMeshCulled sqrtF r mesh m lb c l).2 := by
  unfold RState.DrawMeshCulled
  dsimp only
  split
  · unfold statsInv at h ⊢
    rw [isVisibleTransformed_stats]
    simp only []
    omega
  · apply drawMesh_inv
    unfold statsInv at h ⊢
    rw [isVisibleTransformed_stats]
    simp only []
    omega

theorem drawMeshTexturedCulled_inv (sqrtF : F → F) (r : RState) (mesh : MeshData)
    (m : Mat4) (lb : AABB) (tex : Texture) (l : Vec3) (h : statsInv r) :
    statsInv (RState.DrawMeshTexturedCulled sqrtF r mesh m lb tex l).2 := by
  unfold RState.DrawMeshTexturedCulled
  dsimp only
  split
  · unfold statsInv at h ⊢
    rw [isVisibleTransformed_stats]
    simp only []
    omega
  · apply drawMeshTextured_inv
    unfold statsInv at h ⊢
    rw [isVisibleTransformed_stats]
    simp only []
    omega

theorem tryFrustumCull_counts (sqrtF : F → F) (r : RState) (mesh : MeshData)
    (m : Mat4) (hb : mesh.Bounds ≠ none) :
    (r.tryFrustumCull sqrtF mesh m).2.CullingStats.MeshesTested
        = r.CullingStats.MeshesTested + 1 ∧
      (r.tryFrustumCull sqrtF mesh m).2.CullingStats.MeshesCulled
          + (r.tryFrustumCull sqrtF mesh m).2.CullingStats.MeshesDrawn
        = r.CullingStats.MeshesCulled + r.CullingStats.MeshesDrawn + 1 := by
  unfold RState.tryFrustumCull
  dsimp only
  cases hbb : mesh.Bounds with
  | none => exact absurd hbb hb
  | some bounds =>
    obtain ⟨bmin, bmax⟩ := bounds
    dsimp only
    split <;> simp [isVisibleTransformed_stats] <;> omega

/-- A trivial mesh fixture: no vertices, no triangles, no bounds. -/
def meshC9 : MeshData :=
  { VertexCount := 0, TriangleCount := 0,
    GetVertex := fun _ => (zeroV3, zeroV3, zeroV2),
    GetFace := fun _ => (0, 0, 0), Bounds := none }

/-- A degenerate AABB fixture at the origin. -/
def aabbC9 : AABB := ⟨zeroV3, zeroV3⟩

/-- A degenerate triangle fixture at the origin. -/
def triC9 : Triangle :=
  ⟨⟨zeroV3, zeroV3, zeroV2, RGB 255 255 255⟩,
   ⟨zeroV3, zeroV3, zeroV2, RGB 255 255 255⟩,
   ⟨zeroV3, zeroV3, zeroV2, RGB 255 255 255⟩⟩

/-- A one-pixel white texture fixture. -/
def texC9 : Texture :=
  ⟨1, 1, [RGB 255 255 255], WrapMode.WrapRepeat, WrapMode.WrapRepeat,
   FilterMode.FilterNearest⟩

/-- C9: `ResetCullingStats` establishes the invariant
`MeshesTested = MeshesCulled + MeshesDrawn`, and every draw operation of the
rasterizer preserves it; moreover `tryFrustumCull` — the only counting site of
the mesh draws — increments `MeshesTested` by one and exactly one of
`MeshesCulled`/`MeshesDrawn` by one whenever the mesh carries bounds. -/
theorem C9_culling_stats_invariant (sqrtF : F → F) (r s : RState) (mesh : MeshData)
    (m : Mat4) (lb : AABB) (c : Color) (tex : Texture) (l : Vec3) (tri : Triangle)
    (v0 v1 v2 a b : Vec3) (h : statsInv s) :
    statsInv (RState.ResetCullingStats r)
    ∧ statsInv (s.tryFrustumCull sqrtF mesh m).2
    ∧ (mesh.Bounds ≠ none →
        (s.tryFrustumCull sqrtF mesh m).2.CullingStats.MeshesTested
            = s.CullingStats.MeshesTested + 1 ∧
          (s.tryFrustumCull sqrtF mesh m).2.CullingStats.MeshesCulled
              + (s.tryFrustumCull sqrtF mesh m).2.CullingStats.MeshesDrawn
            = s.CullingStats.MeshesCulled + s.CullingStats.MeshesDrawn + 1)
    ∧ statsInv (RState.DrawMesh sqrtF s mesh m c l)
    ∧ statsInv (RState.DrawMeshTextured sqrtF s mesh m tex l)
    ∧ statsInv (RState.DrawMeshGouraud sqrtF s mesh m c l)
    ∧ statsInv (RState.DrawMeshTexturedGouraud sqrtF s mesh m tex l)
    ∧ statsInv (RState.DrawMeshGouraudOpt sqrtF s mesh m c l)
    ∧ statsInv (RState.DrawMeshTexturedOpt sqrtF s mesh m tex l)
    ∧ statsInv (RState.DrawMeshGouraudCulled sqrtF s mesh m lb c l).2
    ∧ statsInv (RState.DrawMeshTexturedGouraudCulled sqrtF s mesh m lb tex l).2
    ∧ statsInv (RState.DrawMeshCulled sqrtF s mesh m lb c l).2
    ∧ statsInv (RState.DrawMeshTexturedCulled sqrtF s mesh m lb tex l).2
    ∧ statsInv (RState.DrawMeshWireframe sqrtF s mesh m c)
    ∧ statsInv (s.DrawTriangle tri)
    ∧ statsInv (RState.DrawTriangleGouraud sqrtF s tri l)
    ∧ statsInv (RState.DrawTriangleTextured sqrtF s tri tex l)
    ∧ statsInv (RState.DrawTriangleTexturedGouraud sqrtF s tri tex l)
    ∧ statsInv (RState.DrawTriangleGouraudOpt sqrtF s tri l)
    ∧ statsInv (RState.DrawTriangleTexturedOpt sqrtF s tri tex l)
    ∧ statsInv (RState.DrawTriangleLit sqrtF s v0 v1 v2 c l)
    ∧ statsInv (s.drawLine3D a b c) :=
  ⟨rfl,
   tryFrustumCull_inv sqrtF s mesh m h,
   fun hb => tryFrustumCull_counts sqrtF s mesh m hb,
   drawMesh_inv sqrtF s mesh m c l h,
   drawMeshTextured_inv sqrtF s mesh m tex l h,
   drawMeshGouraud_inv sqrtF s mesh m c l h,
   drawMeshTexturedGouraud_inv sqrtF s mesh m tex l h,
   drawMeshGouraudOpt_inv sqrtF s mesh m c l h,
   drawMeshTexturedOpt_inv sqrtF s mesh m tex l h,
   drawMeshGouraudCulled_inv sqrtF s mesh m lb c l h,
   drawMeshTexturedGouraudCulled_inv sqrtF s mesh m lb tex l h,
   drawMeshCulled_inv sqrtF s mesh m lb c l h,
   drawMeshTexturedCulled_inv sqrtF s mesh m lb tex l h,
   drawMeshWireframe_inv sqrtF s mesh m c h,
   statsInv_congr (drawTriangle_stats s tri) h,
   statsInv_congr (drawTriangleGouraud_stats sqrtF s tri l) h,
   statsInv_congr (drawTriangleTextured_stats sqrtF s tri tex l) h,
   statsInv_congr (drawTriangleTexturedGouraud_stats sqrtF s tri tex l) h,
   statsInv_congr (drawTriangleGouraudOpt_stats sqrtF s tri l) h,
   statsInv_congr (drawTriangleTexturedOpt_stats sqrtF s tri tex l) h,
   statsInv_congr (drawTriangleLit_stats sqrtF s v0 v1 v2 c l) h,
   statsInv_congr (drawLine3D_stats s a b c) h⟩

/-- Witness for C9 at concrete fixtures over the 4×4 base state. -/
theorem C9_culling_stats_witness :
    statsInv baseState4 ∧
    (statsInv (RState.ResetCullingStats baseState4)
    ∧ statsInv (baseState4.tryFrustumCull idSqrt meshC9 Identity).2
    ∧ (meshC9.Bounds ≠ none →
        (baseState4.tryFrustumCull idSqrt meshC9 Identity).2.CullingStats.MeshesTested
            = baseState4.CullingStats.MeshesTested + 1 ∧
          (baseState4.tryFrustumCull idSqrt meshC9 Identity).2.CullingStats.MeshesCulled
              + (baseState4.tryFrustumCull idSqrt meshC9 Identity).2.CullingStats.MeshesDrawn
            = baseState4.CullingStats.MeshesCulled + baseState4.CullingStats.MeshesDrawn + 1)
    ∧ statsInv (RState.DrawMesh idSqrt baseState4 meshC9 Identity (RGB 255 0 0) zeroV3)
    ∧ statsInv (RState.DrawMeshTextured idSqrt baseState4 meshC9 Identity texC9 zeroV3)
    ∧ statsInv (RState.DrawMeshGouraud idSqrt baseState4 meshC9 Identity (RGB 255 0 0) zeroV3)
    ∧ statsInv (RState.DrawMeshTexturedGouraud idSqrt baseState4 meshC9 Identity texC9 zeroV3)
    ∧ statsInv (RState.DrawMeshGouraudOpt idSqrt baseState4 meshC9 Identity (RGB 255 0 0) zeroV3)
    ∧ statsInv (RState.DrawMeshTexturedOpt idSqrt baseState4 meshC9 Identity texC9 zeroV3)
    ∧ statsInv (RState.DrawMeshGouraudCulled idSqrt baseState4 meshC9 Identity aabbC9 (RGB 255 0 0) zeroV3).2
    ∧ statsInv (RState.DrawMeshTexturedGouraudCulled idSqrt baseState4 meshC9 Identity aabbC9 texC9 zeroV3).2
    ∧ statsInv (RState.DrawMeshCulled idSqrt baseState4 meshC9 Identity aabbC9 (RGB 255 0 0) zeroV3).2
    ∧ statsInv (RState.DrawMeshTexturedCulled idSqrt baseState4 meshC9 Identity aabbC9 texC9 zeroV3).2
    ∧ statsInv (RState.DrawMeshWireframe idSqrt baseState4 meshC9 Identity (RGB 255 0 0))
    ∧ statsInv (baseState4.DrawTriangle triC9)
    ∧ statsInv (RState.DrawTriangleGouraud idSqrt baseState4 triC9 zeroV3)
    ∧ statsInv (RState.DrawTriangleTextured idSqrt baseState4 triC9 texC9 zeroV3)
    ∧ statsInv (RState.DrawTriangleTexturedGouraud idSqrt baseState4 triC9 texC9 zeroV3)
    ∧ statsInv (RState.DrawTriangleGouraudOpt idSqrt baseState4 triC9 zeroV3)
    ∧ statsInv (RState.DrawTriangleTexturedOpt idSqrt baseState4 triC9 texC9 zeroV3)
    ∧ statsInv (RState.DrawTriangleLit idSqrt baseState4 zeroV3 zeroV3 zeroV3 (RGB 255 0 0) zeroV3)
    ∧ statsInv (baseState4.drawLine3D zeroV3 zeroV3 (RGB 255 0 0))) :=
  ⟨by unfold statsInv; decide,
   C9_culling_stats_invariant idSqrt baseState4 baseState4 meshC9 Identity aabbC9
     (RGB 255 0 0) texC9 zeroV3 triC9 zeroV3 zeroV3 zeroV3 zeroV3 zeroV3
     (by unfold statsInv; decide)⟩

/-! ### C5: camera matrix caches -/

/-- When the view dirty bit is clear, the cached view matrix is fresh. -/
def camViewInv (E : TrigEnv) (c : Camera) : Prop :=
  c.viewDirty = false → c.viewMatrix = computeViewMatrix E c

/-- When the projection dirty bit is clear, the cached projection matrix is
fresh. -/
def camProjInv (E : TrigEnv) (c : Camera) : Prop :=
  c.projDirty = false → c.projMatrix = computeProjectionMatrix E c

theorem viewMatrixM_inv (E : TrigEnv) (c : Camera)
    (hv : camViewInv E c) (hp : camProjInv E c) :
    camViewInv E (Camera.ViewMatrixM E c).2 ∧ camProjInv E (Camera.ViewMatrixM E c).2 := by
  unfold Camera.ViewMatrixM
  cases hd : c.viewDirty with
  | true =>
    simp only [if_pos rfl]
    exact ⟨fun _ => rfl, fun h => hp h⟩
  | false =>
    simp only [Bool.false_eq_true, if_neg (Bool.false_ne_true)]
    exact ⟨hv, hp⟩

theorem projectionMatrixM_inv (E : TrigEnv) (c : Camera)
    (hv : camViewInv E c) (hp : camProjInv E c) :
    camViewInv E (Camera.ProjectionMatrixM E c).2
      ∧ camProjInv E (Camera.ProjectionMatrixM E c).2 := by
  unfold Camera.ProjectionMatrixM
  cases hd : c.projDirty with
  | true =>
    simp only [if_pos rfl]
    exact ⟨fun h => hv h, fun _ => rfl⟩
  | false =>
    simp only [Bool.false_eq_true, if_neg (Bool.false_ne_true)]
    exact ⟨hv, hp⟩

theorem camStep_inv (E : TrigEnv) (c : Camera) (op : CamOp)
    (hv : camViewInv E c) (hp : camProjInv E c) :
    camViewInv E (camStep E c op) ∧ camProjInv E (camStep E c op) := by
  cases op with
  | setPosition pos => exact ⟨fun h => Bool.noConfusion h, fun h => hp h⟩
  | setRotation p y r => exact ⟨fun h => Bool.noConfusion h, fun h => hp h⟩
  | setFOV fov => exact ⟨fun h => hv h, fun h => Bool.noConfusion h⟩
  | setAspectRatio a => exact ⟨fun h => hv h, fun h => Bool.noConfusion h⟩
  | setClipPlanes n f => exact ⟨fun h => hv h, fun h => Bool.noConfusion h⟩
  | moveForward d => exact ⟨fun h => Bool.noConfusion h, fun h => hp h⟩
  | moveRight d => exact ⟨fun h => Bool.noConfusion h, fun h => hp h⟩
  | moveUp d => exact ⟨fun h => Bool.noConfusion h, fun h => hp h⟩
  | rotate dp dy dr => exact ⟨fun h => Bool.noConfusion h, fun h => hp h⟩
  | lookAt t => exact ⟨fun h => Bool.noConfusion h, fun h => hp h⟩
  | viewMatrix => exact viewMatrixM_inv E c hv hp
  | projectionMatrix => exact projectionMatrixM_inv E c hv hp
  | viewProjectionMatrix =>
    show camViewInv E (Camera.ViewProjectionMatrixM E c).2
      ∧ camProjInv E (Camera.ViewProjectionMatrixM E c).2
    unfold Camera.ViewProjectionMatrixM
    dsimp only
    split
    · obtain ⟨hv1, hp1⟩ := viewMatrixM_inv E c hv hp
      obtain ⟨hv2, hp2⟩ := projectionMatrixM_inv E (Camera.ViewMatrixM E c).2 hv1 hp1
      exact ⟨fun h => hv2 h, fun h => hp2 h⟩
    · exact ⟨hv, hp⟩

/-- C5 (amended): along every call sequence from a fresh camera, a clear
`viewDirty` bit means the cached view matrix is what `computeViewMatrix`
returns for the current state, and a clear `projDirty` bit means the cached
projection matrix is what `computeProjectionMatrix` returns.  (The analogous
property for the combined view-projection cache is false; see the
counterexample.) -/
theorem C5_camera_cache_invariant (E : TrigEnv) (ops : List CamOp) :
    camViewInv E (camRun E (NewCamera E) ops)
      ∧ camProjInv E (camRun E (NewCamera E) ops) := by
  unfold camRun
  have main : ∀ (L : List CamOp) (c : Camera), camViewInv E c → camProjInv E c →
      camViewInv E (L.foldl (camStep E) c) ∧ camProjInv E (L.foldl (camStep E) c) := by
    intro L
    induction L with
    | nil => exact fun c hv hp => ⟨hv, hp⟩
    | cons op L ih =>
      intro c hv hp
      rw [List.foldl_cons]
      obtain ⟨hv1, hp1⟩ := camStep_inv E c op hv hp
      exact ih _ hv1 hp1
  exact main ops (NewCamera E) (fun h => Bool.noConfusion h) (fun h => Bool.noConfusion h)

/-- A concrete stand-in for the transcendental primitives, used only to pin
down one reachable camera state. -/
def trigZero : TrigEnv :=
  { piF := fq 0, sinF := fun _ => fq 0, cosF := fun _ => fq 1,
    tanF := fun _ => fq 1, asinF := fun _ => fq 0,
    atan2F := fun _ _ => fq 0, sqrtF := fun x => x }

/-- The camera after `ViewMatrix()` then `ProjectionMatrix()` on a fresh
camera: both dirty bits are clear. -/
def cameraC5 : Camera :=
  camRun trigZero (NewCamera trigZero) [CamOp.viewMatrix, CamOp.projectionMatrix]

/-- C5 counterexample: after `ViewMatrix()` then `ProjectionMatrix()` both
dirty bits are clear, yet the cached combined view-projection matrix is the
stale zero matrix, not the fresh projection-times-view product. -/
theorem C5_counterexample_stale_viewproj :
    cameraC5.viewDirty = false ∧ cameraC5.projDirty = false ∧
      cameraC5.viewProjMatrix ≠
        (computeProjectionMatrix trigZero cameraC5).Mul
          (computeViewMatrix trigZero cameraC5) :=
  ⟨rfl, rfl, by decide⟩

/-! ### C10: bounding-box clamping keeps the Opt depth accesses in bounds -/

theorem intRange_mem (lo hi x : Int) : x ∈ intRange lo hi ↔ lo ≤ x ∧ x ≤ hi := by
  unfold intRange
  constructor
  · intro hx
    simp only [List.mem_map, List.bind_eq_flatMap, List.mem_flatMap, List.mem_range,
      List.mem_pure] at hx
    obtain ⟨b, ⟨a, ha, rfl⟩, rfl⟩ := hx
    omega
  · intro h
    simp only [List.mem_map, List.bind_eq_flatMap, List.mem_flatMap, List.mem_range,
      List.mem_pure]
    refine ⟨((x - lo).toNat : Int), ⟨(x - lo).toNat, by omega, rfl⟩, by omega⟩

theorem goInt_intCast (n : Int) : goInt (F.fin ((n : ℤ) : ℚ)) = n := by
  simp [goInt, Rat.num_intCast, Rat.den_intCast]

theorem goInt_max_floor_nonneg (m : Int) : 0 ≤ goInt (F.fin (max (0 : ℚ) ((m : ℤ) : ℚ))) := by
  rcases le_or_lt (0 : ℚ) ((m : ℤ) : ℚ) with h | h
  · rw [max_eq_right h, goInt_intCast]
    exact_mod_cast h
  · rw [max_eq_left h.le]
    have h0 : (0 : ℚ) = ((0 : ℤ) : ℚ) := by norm_num
    rw [h0, goInt_intCast]

theorem goInt_min_le (n m : Int) : goInt (F.fin (min ((n : ℤ) : ℚ) ((m : ℤ) : ℚ))) ≤ n := by
  rcases le_total ((n : ℤ) : ℚ) ((m : ℤ) : ℚ) with h | h
  · rw [min_eq_left h, goInt_intCast]
  · rw [min_eq_right h, goInt_intCast]
    exact_mod_cast h

/-- For finite screen coordinates, the clamped bounding box of the draw
paths lies inside `[0, Width-1] x [0, Height-1]`. -/
theorem computeBBox_bounds (r : RState) (sv0 sv1 sv2 : screenVertex)
    (hf0x : sv0.X.isFin = true) (hf1x : sv1.X.isFin = true) (hf2x : sv2.X.isFin = true)
    (hf0y : sv0.Y.isFin = true) (hf1y : sv1.Y.isFin = true) (hf2y : sv2.Y.isFin = true) :
    0 ≤ (computeBBox r sv0 sv1 sv2).1
    ∧ (computeBBox r sv0 sv1 sv2).2.1 ≤ (r.Width : Int) - 1
    ∧ 0 ≤ (computeBBox r sv0 sv1 sv2).2.2.1
    ∧ (computeBBox r sv0 sv1 sv2).2.2.2 ≤ (r.Height : Int) - 1 := by
  obtain ⟨a0, h0⟩ := isFin_exists _ hf0x
  obtain ⟨a1, h1⟩ := isFin_exists _ hf1x
  obtain ⟨a2, h2⟩ := isFin_exists _ hf2x
  obtain ⟨b0, h3⟩ := isFin_exists _ hf0y
  obtain ⟨b1, h4⟩ := isFin_exists _ hf1y
  obtain ⟨b2, h5⟩ := isFin_exists _ hf2y
  unfold computeBBox
  rw [h0, h1, h2, h3, h4, h5]
  simp only [min3, max3, intF, fin_fmin, fin_fmax, fin_ffloor, fin_fceil]
  exact ⟨goInt_max_floor_nonneg _, goInt_min_le _ _,
    goInt_max_floor_nonneg _, goInt_min_le _ _⟩

/-- C10: under `len(zbuffer) = Width * Height` and finite screen
coordinates, every pixel `(x, y)` that the nested loops of
`DrawTriangleGouraudOpt` enumerate (`x` over `[minX, maxX]`, `y` over
`[minY, maxY]` of the clamped bounding box, both ranges empty when the
clamped box is empty) satisfies `0 ≤ x ≤ Width-1`, `0 ≤ y ≤ Height-1`, and
the unchecked depth index `y*Width + x` is in bounds for the depth
buffer. -/
theorem C10_opt_bbox_in_bounds (r : RState) (sv0 sv1 sv2 : screenVertex) (x y : Int)
    (hf0x : sv0.X.isFin = true) (hf1x : sv1.X.isFin = true) (hf2x : sv2.X.isFin = true)
    (hf0y : sv0.Y.isFin = true) (hf1y : sv1.Y.isFin = true) (hf2y : sv2.Y.isFin = true)
    (hlen : r.zbuffer.length = r.Width * r.Height)
    (hx : x ∈ intRange (computeBBox r sv0 sv1 sv2).1 (computeBBox r sv0 sv1 sv2).2.1)
    (hy : y ∈ intRange (computeBBox r sv0 sv1 sv2).2.2.1 (computeBBox r sv0 sv1 sv2).2.2.2) :
    0 ≤ x ∧ x ≤ (r.Width : Int) - 1 ∧ 0 ≤ y ∧ y ≤ (r.Height : Int) - 1
    ∧ 0 ≤ y * (r.Width : Int) + x
    ∧ (y * (r.Width : Int) + x).toNat < r.zbuffer.length := by
  obtain ⟨hminx, hmaxx, hminy, hmaxy⟩ :=
    computeBBox_bounds r sv0 sv1 sv2 hf0x hf1x hf2x hf0y hf1y hf2y
  obtain ⟨hx1, hx2⟩ := (intRange_mem _ _ _).mp hx
  obtain ⟨hy1, hy2⟩ := (intRange_mem _ _ _).mp hy
  have hxl : 0 ≤ x := le_trans hminx hx1
  have hxu : x ≤ (r.Width : Int) - 1 := le_trans hx2 hmaxx
  have hyl : 0 ≤ y := le_trans hminy hy1
  have hyu : y ≤ (r.Height : Int) - 1 := le_trans hy2 hmaxy
  have hW0 : (0 : Int) ≤ (r.Width : Int) := Int.natCast_nonneg _
  have hidx0 : 0 ≤ y * (r.Width : Int) + x :=
    add_nonneg (mul_nonneg hyl hW0) hxl
  have hyW : y * (r.Width : Int) ≤ ((r.Height : Int) - 1) * (r.Width : Int) :=
    mul_le_mul_of_nonneg_right hyu hW0
  have hexp : ((r.Height : Int) - 1) * (r.Width : Int)
      = (r.Height : Int) * (r.Width : Int) - (r.Width : Int) := by ring
  have hidxu : y * (r.Width : Int) + x < (r.Height : Int) * (r.Width : Int) := by
    rw [hexp] at hyW
    linarith
  have hcast : ((r.Width * r.Height : Nat) : Int)
      = (r.Height : Int) * (r.Width : Int) := by push_cast; ring
  have main : ∀ k : Int, 0 ≤ k → k < (r.zbuffer.length : Int) →
      k.toNat < r.zbuffer.length := by
    intro k hk1 hk2
    omega
  refine ⟨hxl, hxu, hyl, hyu, hidx0, main _ hidx0 ?_⟩
  rw [hlen, hcast]
  exact hidxu

/-- Screen-vertex fixture for the C10 witness. -/
def svA : screenVertex := ⟨F.fin 1, F.fin 1, F.fin 0, F.fin 1, RGB 255 0 0, zeroV3, zeroV2⟩

/-- Screen-vertex fixture for the C10 witness. -/
def svB : screenVertex := ⟨fr 5 2, F.fin 1, F.fin 0, F.fin 1, RGB 255 0 0, zeroV3, zeroV2⟩

/-- Screen-vertex fixture for the C10 witness. -/
def svC : screenVertex := ⟨F.fin 2, fr 5 2, F.fin 0, F.fin 1, RGB 255 0 0, zeroV3, zeroV2⟩

/-- Witness for C10 at a concrete 4x4 state and concrete screen triangle. -/
theorem C10_opt_bbox_witness :
    baseState4.zbuffer.length = baseState4.Width * baseState4.Height
    ∧ (2 : Int) ∈ intRange (computeBBox baseState4 svA svB svC).1
        (computeBBox baseState4 svA svB svC).2.1
    ∧ (1 : Int) ∈ intRange (computeBBox baseState4 svA svB svC).2.2.1
        (computeBBox baseState4 svA svB svC).2.2.2
    ∧ (0 ≤ (2 : Int) ∧ (2 : Int) ≤ (baseState4.Width : Int) - 1
        ∧ 0 ≤ (1 : Int) ∧ (1 : Int) ≤ (baseState4.Height : Int) - 1
        ∧ 0 ≤ (1 : Int) * (baseState4.Width : Int) + 2
        ∧ ((1 : Int) * (baseState4.Width : Int) + 2).toNat < baseState4.zbuffer.length) :=
  ⟨by decide, by decide, by decide,
   C10_opt_bbox_in_bounds baseState4 svA svB svC 2 1 (by decide) (by decide) (by decide)
     (by decide) (by decide) (by decide) (by decide) (by decide) (by decide)⟩

/-! ### C7: strict-less depth test and coplanar draw order -/

/-- The barycentric coordinates of pixel `p`'s center as computed inside the
pixel loop of DrawTriangle (and the other non-Opt paths). -/
def pixBC (sv0 sv1 sv2 : screenVertex) (p : Int × Int) : Vec3 :=
  barycentric sv0.X sv0.Y sv1.X sv1.Y sv2.X sv2.Y (intF p.1 + fr 1 2) (intF p.2 + fr 1 2)

/-- The inside-test rejection condition of the pixel loop. -/
def pixOutside (sv0 sv1 sv2 : screenVertex) (p : Int × Int) : Bool :=
  F.ltb (pixBC sv0 sv1 sv2 p).X (F.fin 0) || F.ltb (pixBC sv0 sv1 sv2 p).Y (F.fin 0)
    || F.ltb (pixBC sv0 sv1 sv2 p).Z (F.fin 0)

/-- The interpolated depth of pixel `p` as computed in the pixel loop. -/
def pixZ (sv0 sv1 sv2 : screenVertex) (p : Int × Int) : F :=
  (pixBC sv0 sv1 sv2 p).X * sv0.Z + (pixBC sv0 sv1 sv2 p).Y * sv1.Z
    + (pixBC sv0 sv1 sv2 p).Z * sv2.Z

/-- The Gram determinant `dot00*dot11 - dot01*dot01` whose reciprocal
`barycentric` takes. -/
def baryDenom (sv0 sv1 sv2 : screenVertex) : F :=
  let v0x := sv2.X - sv0.X
  let v0y := sv2.Y - sv0.Y
  let v1x := sv1.X - sv0.X
  let v1y := sv1.Y - sv0.Y
  let dot00 := v0x * v0x + v0y * v0y
  let dot01 := v0x * v1x + v0y * v1y
  let dot11 := v1x * v1x + v1y * v1y
  dot00 * dot11 - dot01 * dot01

/-- A screen vertex with finite coordinates lying on the screen-space plane
`Z = a*X + b*Y + c`. -/
def onScreenPlane (a b c : ℚ) (sv : screenVertex) : Prop :=
  sv.X.isFin = true ∧ sv.Y.isFin = true
    ∧ sv.Z = F.fin a * sv.X + F.fin b * sv.Y + F.fin c

/-- `drawTrianglePixel` in terms of the named pixel quantities: inside test,
then the strict depth test (`z >= stored` rejects), then the depth write
followed by the color write. -/
theorem drawTrianglePixel_char (sv0 sv1 sv2 : screenVertex) (S : RState) (p : Int × Int) :
    drawTrianglePixel sv0 sv1 sv2 S p =
      if pixOutside sv0 sv1 sv2 p = true then S
      else if F.geb (pixZ sv0 sv1 sv2 p) (S.getDepth p.1 p.2) = true then S
      else
        let r1 := S.setDepth p.1 p.2 (pixZ sv0 sv1 sv2 p)
        let col := interpolateColor3 sv0.Color sv1.Color sv2.Color (pixBC sv0 sv1 sv2 p)
        { r1 with fb := r1.fb.SetPixel p.1 p.2 col } :=
  rfl

theorem drawTrianglePixel_id_of_geb (sv0 sv1 sv2 : screenVertex) (S : RState)
    (q : Int × Int) (h : F.geb (pixZ sv0 sv1 sv2 q) (S.getDepth q.1 q.2) = true) :
    drawTrianglePixel sv0 sv1 sv2 S q = S := by
  rw [drawTrianglePixel_char]
  simp [h]

theorem SetPixel_Width (fb : Framebuffer) (x y : Int) (c : Color) :
    (fb.SetPixel x y c).Width = fb.Width := by
  unfold Framebuffer.SetPixel
  split <;> rfl

theorem SetPixel_Height (fb : Framebuffer) (x y : Int) (c : Color) :
    (fb.SetPixel x y c).Height = fb.Height := by
  unfold Framebuffer.SetPixel
  split <;> rfl

theorem drawTrianglePixel_dims (sv0 sv1 sv2 : screenVertex) (S : RState) (q : Int × Int) :
    (drawTrianglePixel sv0 sv1 sv2 S q).viewProj = S.viewProj
    ∧ (drawTrianglePixel sv0 sv1 sv2 S q).fb.Width = S.fb.Width
    ∧ (drawTrianglePixel sv0 sv1 sv2 S q).fb.Height = S.fb.Height
    ∧ (drawTrianglePixel sv0 sv1 sv2 S q).zbuffer.length = S.zbuffer.length := by
  rw [drawTrianglePixel_char]
  split
  · exact ⟨rfl, rfl, rfl, rfl⟩
  split
  · exact ⟨rfl, rfl, rfl, rfl⟩
  unfold RState.setDepth
  dsimp only
  split
  · exact ⟨rfl, SetPixel_Width _ _ _ _, SetPixel_Height _ _ _ _, rfl⟩
  · exact ⟨rfl, SetPixel_Width _ _ _ _, SetPixel_Height _ _ _ _, by simp⟩

theorem foldl_pix_dims (sv0 sv1 sv2 : screenVertex) :
    ∀ (L : List (Int × Int)) (S : RState),
      (L.foldl (drawTrianglePixel sv0 sv1 sv2) S).viewProj = S.viewProj
      ∧ (L.foldl (drawTrianglePixel sv0 sv1 sv2) S).fb.Width = S.fb.Width
      ∧ (L.foldl (drawTrianglePixel sv0 sv1 sv2) S).fb.Height = S.fb.Height
      ∧ (L.foldl (drawTrianglePixel sv0 sv1 sv2) S).zbuffer.length = S.zbuffer.length := by
  intro L
  induction L with
  | nil => exact fun S => ⟨rfl, rfl, rfl, rfl⟩
  | cons q L ih =>
    intro S
    rw [List.foldl_cons]
    obtain ⟨i1, i2, i3, i4⟩ := ih (drawTrianglePixel sv0 sv1 sv2 S q)
    obtain ⟨j1, j2, j3, j4⟩ := drawTrianglePixel_dims sv0 sv1 sv2 S q
    exact ⟨i1.trans j1, i2.trans j2, i3.trans j3, i4.trans j4⟩

theorem pixIndex_inj (W : Int) (px py qx qy : Int)
    (hpx0 : 0 ≤ px) (hpxW : px < W) (hqx0 : 0 ≤ qx) (hqxW : qx < W)
    (hne : (px, py) ≠ (qx, qy)) :
    py * W + px ≠ qy * W + qx := by
  intro he
  have hW : (0 : Int) < W := lt_of_le_of_lt hpx0 hpxW
  rcases eq_or_ne py qy with h | h
  · subst h
    have hpq : px = qx := by linarith
    exact hne (by rw [hpq])
  · have h1 : py * W - qy * W = qx - px := by linarith
    rcases h.lt_or_lt with hlt | hlt
    · have h2 : py - qy ≤ -1 := by omega
      have h3 : (py - qy) * W ≤ (-1) * W :=
        mul_le_mul_of_nonneg_right h2 hW.le
      have h4 : (py - qy) * W = py * W - qy * W := by ring
      have h5 : (-1 : Int) * W = -W := by ring
      linarith
    · have h2 : (1 : Int) ≤ py - qy := by omega
      have h3 : (1 : Int) * W ≤ (py - qy) * W :=
        mul_le_mul_of_nonneg_right h2 hW.le
      have h4 : (py - qy) * W = py * W - qy * W := by ring
      have h5 : (1 : Int) * W = W := by ring
      linarith

theorem toNat_ne_of_ne (A B : Int) (h1 : 0 ≤ A) (h2 : 0 ≤ B) (h3 : A ≠ B) :
    A.toNat ≠ B.toNat := by
  intro h4
  exact h3 (by omega)

theorem GetPixel_SetPixel_ne (fb : Framebuffer) (px py qx qy : Int) (c : Color)
    (hne : (px, py) ≠ (qx, qy)) :
    (fb.SetPixel qx qy c).GetPixel px py = fb.GetPixel px py := by
  unfold Framebuffer.SetPixel Framebuffer.GetPixel
  split
  · rfl
  · rename_i hq
    push_neg at hq
    dsimp only
    split
    · rfl
    · rename_i hp
      push_neg at hp
      have hidx : (py * (fb.Width : Int) + px).toNat ≠ (qy * (fb.Width : Int) + qx).toNat := by
        apply toNat_ne_of_ne
        · exact add_nonneg (mul_nonneg hp.2.2.1 (Int.natCast_nonneg _)) hp.1
        · exact add_nonneg (mul_nonneg hq.2.2.1 (Int.natCast_nonneg _)) hq.1
        · exact pixIndex_inj (fb.Width : Int) px py qx qy hp.1 hp.2.1 hq.1 hq.2.1 hne
      simp only [List.getD_eq_getElem?_getD, List.getElem?_set]
      rw [if_neg (Ne.symm hidx)]

theorem drawTrianglePixel_local (sv0 sv1 sv2 : screenVertex) (S : RState)
    (p q : Int × Int) (hne : p ≠ q) :
    (drawTrianglePixel sv0 sv1 sv2 S q).getDepth p.1 p.2 = S.getDepth p.1 p.2
    ∧ (drawTrianglePixel sv0 sv1 sv2 S q).fb.GetPixel p.1 p.2
        = S.fb.GetPixel p.1 p.2 := by
  rw [drawTrianglePixel_char]
  split
  · exact ⟨rfl, rfl⟩
  split
  · exact ⟨rfl, rfl⟩
  unfold RState.setDepth
  dsimp only
  have hpne : (p.1, p.2) ≠ (q.1, q.2) := by
    intro hc
    exact hne (Prod.ext (congrArg Prod.fst hc) (congrArg Prod.snd hc))
  split
  · constructor
    · unfold RState.getDepth RState.Width RState.Height
      rw [SetPixel_Width, SetPixel_Height]
    · exact GetPixel_SetPixel_ne _ _ _ _ _ _ hpne
  · rename_i hq
    push_neg at hq
    constructor
    · unfold RState.getDepth RState.Width RState.Height
      dsimp only
      rw [SetPixel_Width, SetPixel_Height]
      split
      · rfl
      · rename_i hp
        push_neg at hp
        have hidx : (p.2 * (S.fb.Width : Int) + p.1).toNat
            ≠ (q.2 * (S.fb.Width : Int) + q.1).toNat := by
          apply toNat_ne_of_ne
          · exact add_nonneg (mul_nonneg hp.2.2.1 (Int.natCast_nonneg _)) hp.1
          · exact add_nonneg (mul_nonneg hq.2.2.1 (Int.natCast_nonneg _)) hq.1
          · exact pixIndex_inj (S.fb.Width : Int) p.1 p.2 q.1 q.2 hp.1 hp.2.1 hq.1
              hq.2.1 hpne
        simp only [List.getD_eq_getElem?_getD, List.getElem?_set]
        rw [if_neg (Ne.symm hidx)]
    · exact GetPixel_SetPixel_ne _ _ _ _ _ _ hpne

theorem drawTrianglePixel_write_depth (sv0 sv1 sv2 : screenVertex) (S : RState)
    (p : Int × Int)
    (ho : pixOutside sv0 sv1 sv2 p = false)
    (hg : F.geb (pixZ sv0 sv1 sv2 p) (S.getDepth p.1 p.2) = false)
    (hb : 0 ≤ p.1 ∧ p.1 < (S.Width : Int) ∧ 0 ≤ p.2 ∧ p.2 < (S.Height : Int))
    (hlen : (p.2 * (S.Width : Int) + p.1).toNat < S.zbuffer.length) :
    (drawTrianglePixel sv0 sv1 sv2 S p).getDepth p.1 p.2 = pixZ sv0 sv1 sv2 p := by
  unfold RState.Width RState.Height at hb
  unfold RState.Width at hlen
  rw [drawTrianglePixel_char]
  rw [if_neg (by rw [ho]; exact Bool.false_ne_true)]
  rw [if_neg (by rw [hg]; exact Bool.false_ne_true)]
  unfold RState.setDepth
  dsimp only
  rw [if_neg (by push_neg; exact hb)]
  unfold RState.getDepth RState.Width RState.Height
  dsimp only
  rw [SetPixel_Width, SetPixel_Height]
  rw [if_neg (by push_neg; exact hb)]
  simp only [List.getD_eq_getElem?_getD, List.getElem?_set]
  rw [if_pos trivial, if_pos hlen]
  rfl

theorem foldl_pix_local (sv0 sv1 sv2 : screenVertex) (p : Int × Int) :
    ∀ (L : List (Int × Int)) (S : RState), (∀ q ∈ L, q ≠ p) →
      (L.foldl (drawTrianglePixel sv0 sv1 sv2) S).getDepth p.1 p.2 = S.getDepth p.1 p.2
      ∧ (L.foldl (drawTrianglePixel sv0 sv1 sv2) S).fb.GetPixel p.1 p.2
          = S.fb.GetPixel p.1 p.2 := by
  intro L
  induction L with
  | nil => exact fun S _ => ⟨rfl, rfl⟩
  | cons q L ih =>
    intro S hq
    rw [List.foldl_cons]
    obtain ⟨d1, d2⟩ := drawTrianglePixel_local sv0 sv1 sv2 S p q
      (Ne.symm (hq q (List.mem_cons_self q L)))
    obtain ⟨e1, e2⟩ := ih (drawTrianglePixel sv0 sv1 sv2 S q)
      (fun a ha => hq a (List.mem_cons_of_mem q ha))
    exact ⟨e1.trans d1, e2.trans d2⟩

theorem foldl_pix_keep (sv0 sv1 sv2 : screenVertex) (p : Int × Int) :
    ∀ (L : List (Int × Int)) (S : RState),
      F.geb (pixZ sv0 sv1 sv2 p) (S.getDepth p.1 p.2) = true →
      (L.foldl (drawTrianglePixel sv0 sv1 sv2) S).getDepth p.1 p.2 = S.getDepth p.1 p.2
      ∧ (L.foldl (drawTrianglePixel sv0 sv1 sv2) S).fb.GetPixel p.1 p.2
          = S.fb.GetPixel p.1 p.2 := by
  intro L
  induction L with
  | nil => exact fun S _ => ⟨rfl, rfl⟩
  | cons q L ih =>
    intro S hgeb
    rw [List.foldl_cons]
    rcases eq_or_ne q p with rfl | hqp
    · rw [drawTrianglePixel_id_of_geb sv0 sv1 sv2 S q hgeb]
      exact ih S hgeb
    · obtain ⟨d1, d2⟩ := drawTrianglePixel_local sv0 sv1 sv2 S p q (Ne.symm hqp)
      obtain ⟨e1, e2⟩ := ih (drawTrianglePixel sv0 sv1 sv2 S q) (by rw [d1]; exact hgeb)
      exact ⟨e1.trans d1, e2.trans d2⟩

theorem mem_first_split {α : Type} [DecidableEq α] (a : α) :
    ∀ (l : List α), a ∈ l → ∃ s t, l = s ++ a :: t ∧ a ∉ s := by
  intro l
  induction l with
  | nil => intro h; cases h
  | cons b l ih =>
    intro h
    by_cases hb : a = b
    · subst hb
      exact ⟨[], l, rfl, by simp⟩
    · have h2 : a ∈ l := by
        cases h with
        | head => exact absurd rfl hb
        | tail _ h3 => exact h3
      obtain ⟨s, t, rfl, hns⟩ := ih h2
      exact ⟨b :: s, t, rfl, by simp [hb, hns]⟩

/-- Exactness of the barycentric depth interpolation: when the three screen
vertices have finite coordinates on a common screen plane
`Z = a*X + b*Y + c` and the Gram denominator is nonzero, the interpolated
depth at any pixel center is exactly the plane value there — independent of
the triangle. -/
theorem pixZ_plane (a b c : ℚ) (sv0 sv1 sv2 : screenVertex) (p : Int × Int)
    (h0 : onScreenPlane a b c sv0) (h1 : onScreenPlane a b c sv1)
    (h2 : onScreenPlane a b c sv2)
    (hd : F.beq (baryDenom sv0 sv1 sv2) (F.fin 0) = false) :
    pixZ sv0 sv1 sv2 p
      = F.fin (a * ((p.1 : ℚ) + qmk 1 2) + b * ((p.2 : ℚ) + qmk 1 2) + c) := by
  obtain ⟨x0, hx0⟩ := isFin_exists _ h0.1
  obtain ⟨y0, hy0⟩ := isFin_exists _ h0.2.1
  obtain ⟨x1, hx1⟩ := isFin_exists _ h1.1
  obtain ⟨y1, hy1⟩ := isFin_exists _ h1.2.1
  obtain ⟨x2, hx2⟩ := isFin_exists _ h2.1
  obtain ⟨y2, hy2⟩ := isFin_exists _ h2.2.1
  have hz0 : sv0.Z = F.fin (a * x0 + b * y0 + c) := by
    rw [h0.2.2, hx0, hy0, fin_mul, fin_mul, fin_add, fin_add]
  have hz1 : sv1.Z = F.fin (a * x1 + b * y1 + c) := by
    rw [h1.2.2, hx1, hy1, fin_mul, fin_mul, fin_add, fin_add]
  have hz2 : sv2.Z = F.fin (a * x2 + b * y2 + c) := by
    rw [h2.2.2, hx2, hy2, fin_mul, fin_mul, fin_add, fin_add]
  unfold baryDenom at hd
  rw [hx0, hy0, hx1, hy1, hx2, hy2] at hd
  simp only [fin_sub, fin_add, fin_mul, fin_beq] at hd
  have hD := of_decide_eq_false hd
  unfold pixZ pixBC barycentric V3
  rw [hx0, hy0, hx1, hy1, hx2, hy2, hz0, hz1, hz2]
  dsimp only
  simp only [intF, fr, fq, fin_sub, fin_add, fin_mul]
  rw [fin_div _ _ hD]
  simp only [fin_sub, fin_add, fin_mul]
  congr 1
  field_simp
  ring

theorem pixelList_mem (minX maxX minY maxY : Int) (p : Int × Int) :
    p ∈ pixelList minX maxX minY maxY
      ↔ p.1 ∈ intRange minX maxX ∧ p.2 ∈ intRange minY maxY := by
  unfold pixelList
  constructor
  · intro h
    simp only [List.mem_flatMap, List.mem_map] at h
    obtain ⟨y, hy, x, hx, rfl⟩ := h
    exact ⟨hx, hy⟩
  · intro h
    simp only [List.mem_flatMap, List.mem_map]
    exact ⟨p.2, h.2, p.1, h.1, rfl⟩

theorem pixIndex_lt_len (W H len : Nat) (x y : Int) (hlen : len = W * H)
    (h1 : 0 ≤ x) (h2 : x < (W : Int)) (h3 : 0 ≤ y) (h4 : y < (H : Int)) :
    (y * (W : Int) + x).toNat < len := by
  have hW0 : (0 : Int) ≤ (W : Int) := Int.natCast_nonneg _
  have hidx0 : 0 ≤ y * (W : Int) + x := add_nonneg (mul_nonneg h3 hW0) h1
  have hyW : y * (W : Int) ≤ ((H : Int) - 1) * (W : Int) :=
    mul_le_mul_of_nonneg_right (by omega) hW0
  have hexp : ((H : Int) - 1) * (W : Int) = (H : Int) * (W : Int) - (W : Int) := by ring
  have hidxu : y * (W : Int) + x < (H : Int) * (W : Int) := by
    rw [hexp] at hyW
    linarith
  have hcast : ((W * H : Nat) : Int) = (H : Int) * (W : Int) := by push_cast; ring
  have main : ∀ k : Int, 0 ≤ k → k < ((len : Nat) : Int) → k.toNat < len := by
    intro k hk1 hk2
    omega
  apply main _ hidx0
  rw [hlen, hcast]
  exact hidxu

theorem foldl_pix_post_geb (sv0 sv1 sv2 : screenVertex) (p : Int × Int)
    (L : List (Int × Int)) (r : RState)
    (hmem : p ∈ L)
    (hcov : pixOutside sv0 sv1 sv2 p = false)
    (hzfin : (pixZ sv0 sv1 sv2 p).isFin = true)
    (hbnd : 0 ≤ p.1 ∧ p.1 < (r.Width : Int) ∧ 0 ≤ p.2 ∧ p.2 < (r.Height : Int))
    (hil : (p.2 * (r.Width : Int) + p.1).toNat < r.zbuffer.length) :
    F.geb (pixZ sv0 sv1 sv2 p)
      ((L.foldl (drawTrianglePixel sv0 sv1 sv2) r).getDepth p.1 p.2) = true := by
  obtain ⟨A, B, rfl, hnA⟩ := mem_first_split p L hmem
  rw [List.foldl_append, List.foldl_cons]
  obtain ⟨dA, _⟩ := foldl_pix_local sv0 sv1 sv2 p A r
    (fun q hq => by rintro rfl; exact hnA hq)
  obtain ⟨_, wA, hA2, lA⟩ := foldl_pix_dims sv0 sv1 sv2 A r
  obtain ⟨zv, hzv⟩ := isFin_exists _ hzfin
  cases hg : F.geb (pixZ sv0 sv1 sv2 p)
      ((A.foldl (drawTrianglePixel sv0 sv1 sv2) r).getDepth p.1 p.2) with
  | true =>
    rw [drawTrianglePixel_id_of_geb sv0 sv1 sv2 _ p hg]
    obtain ⟨k1, _⟩ := foldl_pix_keep sv0 sv1 sv2 p B
      (A.foldl (drawTrianglePixel sv0 sv1 sv2) r) hg
    rw [k1]
    exact hg
  | false =>
    have hbA : 0 ≤ p.1
        ∧ p.1 < ((A.foldl (drawTrianglePixel sv0 sv1 sv2) r).Width : Int)
        ∧ 0 ≤ p.2
        ∧ p.2 < ((A.foldl (drawTrianglePixel sv0 sv1 sv2) r).Height : Int) := by
      unfold RState.Width RState.Height at hbnd ⊢
      rw [wA, hA2]
      exact hbnd
    have hlA : (p.2 * ((A.foldl (drawTrianglePixel sv0 sv1 sv2) r).Width : Int)
        + p.1).toNat < (A.foldl (drawTrianglePixel sv0 sv1 sv2) r).zbuffer.length := by
      unfold RState.Width at hil ⊢
      rw [wA, lA]
      exact hil
    have hw := drawTrianglePixel_write_depth sv0 sv1 sv2
      (A.foldl (drawTrianglePixel sv0 sv1 sv2) r) p hcov hg hbA hlA
    have hgself : F.geb (pixZ sv0 sv1 sv2 p)
        ((drawTrianglePixel sv0 sv1 sv2 (A.foldl (drawTrianglePixel sv0 sv1 sv2) r) p).getDepth
          p.1 p.2) = true := by
      rw [hw, hzv, fin_geb]
      simp
    obtain ⟨k1, _⟩ := foldl_pix_keep sv0 sv1 sv2 p B _ hgself
    rw [k1]
    exact hgself

theorem drawTriangle_dims (r : RState) (t : Triangle) :
    (r.DrawTriangle t).viewProj = r.viewProj
    ∧ (r.DrawTriangle t).fb.Width = r.fb.Width
    ∧ (r.DrawTriangle t).fb.Height = r.fb.Height
    ∧ (r.DrawTriangle t).zbuffer.length = r.zbuffer.length := by
  unfold RState.DrawTriangle
  dsimp only
  split
  · exact ⟨rfl, rfl, rfl, rfl⟩
  split
  · exact ⟨rfl, rfl, rfl, rfl⟩
  exact foldl_pix_dims _ _ _ _ _

theorem projectVertex_congr (r1 r2 : RState) (v : Vertex)
    (hv : r1.viewProj = r2.viewProj) (hw : r1.fb.Width = r2.fb.Width)
    (hh : r1.fb.Height = r2.fb.Height) :
    projectVertex r1 v = projectVertex r2 v := by
  unfold projectVertex RState.Width RState.Height
  rw [hv, hw, hh]

theorem drawTriangle_post_geb (r : RState) (t : Triangle) (p : Int × Int)
    (hbh : allBehind (projectVertex r t.V0) (projectVertex r t.V1)
      (projectVertex r t.V2) = false)
    (hcross : F.ltb (screenCross (projectVertex r t.V0) (projectVertex r t.V1)
      (projectVertex r t.V2)) (F.fin 0) = false)
    (hfx0 : (projectVertex r t.V0).X.isFin = true)
    (hfy0 : (projectVertex r t.V0).Y.isFin = true)
    (hfx1 : (projectVertex r t.V1).X.isFin = true)
    (hfy1 : (projectVertex r t.V1).Y.isFin = true)
    (hfx2 : (projectVertex r t.V2).X.isFin = true)
    (hfy2 : (projectVertex r t.V2).Y.isFin = true)
    (hmem : p ∈ pixelList
      (computeBBox r (projectVertex r t.V0) (projectVertex r t.V1) (projectVertex r t.V2)).1
      (computeBBox r (projectVertex r t.V0) (projectVertex r t.V1) (projectVertex r t.V2)).2.1
      (computeBBox r (projectVertex r t.V0) (projectVertex r t.V1) (projectVertex r t.V2)).2.2.1
      (computeBBox r (projectVertex r t.V0) (projectVertex r t.V1) (projectVertex r t.V2)).2.2.2)
    (hcov : pixOutside (projectVertex r t.V0) (projectVertex r t.V1)
      (projectVertex r t.V2) p = false)
    (hzfin : (pixZ (projectVertex r t.V0) (projectVertex r t.V1)
      (projectVertex r t.V2) p).isFin = true)
    (hlen : r.zbuffer.length = r.Width * r.Height) :
    F.geb (pixZ (projectVertex r t.V0) (projectVertex r t.V1) (projectVertex r t.V2) p)
      ((r.DrawTriangle t).getDepth p.1 p.2) = true := by
  obtain ⟨hpx, hpy⟩ := (pixelList_mem _ _ _ _ _).mp hmem
  obtain ⟨b1, b2, b3, b4⟩ := computeBBox_bounds r (projectVertex r t.V0)
    (projectVertex r t.V1) (projectVertex r t.V2) hfx0 hfx1 hfx2 hfy0 hfy1 hfy2
  obtain ⟨hx1, hx2⟩ := (intRange_mem _ _ _).mp hpx
  obtain ⟨hy1, hy2⟩ := (intRange_mem _ _ _).mp hpy
  have hbnd : 0 ≤ p.1 ∧ p.1 < (r.Width : Int) ∧ 0 ≤ p.2 ∧ p.2 < (r.Height : Int) :=
    ⟨by omega, by omega, by omega, by omega⟩
  have hil : (p.2 * (r.Width : Int) + p.1).toNat < r.zbuffer.length :=
    pixIndex_lt_len r.Width r.Height r.zbuffer.length p.1 p.2 hlen
      hbnd.1 hbnd.2.1 hbnd.2.2.1 hbnd.2.2.2
  unfold RState.DrawTriangle
  dsimp only
  rw [if_neg (by rw [hbh]; exact Bool.false_ne_true)]
  rw [if_neg (by rw [hcross]; exact Bool.false_ne_true)]
  exact foldl_pix_post_geb _ _ _ _ _ _ hmem hcov hzfin hbnd hil

/-- C7: the pixel loop rejects exactly when `z >= stored` — for finite
values, it accepts iff the interpolated depth is strictly less than the
stored depth, and a rejected fragment leaves the state untouched (the depth
write happens only after the test passes, as the characterization shows);
consequently, for two coplanar front-facing triangles drawn T1 then T2
(from any depth-buffer state, in particular right after ClearDepth), every
pixel that T1 covered keeps T1's framebuffer color: T2's interpolated depth
there equals T1's exactly, so T2's strict test fails. -/
theorem C7_depth_test_first_triangle_wins
    (r : RState) (t1 t2 : Triangle) (a b c : ℚ) (p : Int × Int)
    (hlen : r.zbuffer.length = r.Width * r.Height)
    (hplane : ∀ v ∈ [t1.V0, t1.V1, t1.V2, t2.V0, t2.V1, t2.V2],
      onScreenPlane a b c (projectVertex r v))
    (hd1 : F.beq (baryDenom (projectVertex r t1.V0) (projectVertex r t1.V1)
      (projectVertex r t1.V2)) (F.fin 0) = false)
    (hd2 : F.beq (baryDenom (projectVertex r t2.V0) (projectVertex r t2.V1)
      (projectVertex r t2.V2)) (F.fin 0) = false)
    (hbh : allBehind (projectVertex r t1.V0) (projectVertex r t1.V1)
      (projectVertex r t1.V2) = false)
    (hcross : F.ltb (screenCross (projectVertex r t1.V0) (projectVertex r t1.V1)
      (projectVertex r t1.V2)) (F.fin 0) = false)
    (hmem : p ∈ pixelList
      (computeBBox r (projectVertex r t1.V0) (projectVertex r t1.V1) (projectVertex r t1.V2)).1
      (computeBBox r (projectVertex r t1.V0) (projectVertex r t1.V1) (projectVertex r t1.V2)).2.1
      (computeBBox r (projectVertex r t1.V0) (projectVertex r t1.V1) (projectVertex r t1.V2)).2.2.1
      (computeBBox r (projectVertex r t1.V0) (projectVertex r t1.V1) (projectVertex r t1.V2)).2.2.2)
    (hcov : pixOutside (projectVertex r t1.V0) (projectVertex r t1.V1)
      (projectVertex r t1.V2) p = false) :
    (∀ (w0 w1 w2 : screenVertex) (S : RState) (q : Int × Int) (zq dq : ℚ),
        pixZ w0 w1 w2 q = F.fin zq → S.getDepth q.1 q.2 = F.fin dq →
          ((F.geb (pixZ w0 w1 w2 q) (S.getDepth q.1 q.2) = false ↔ zq < dq)
            ∧ (F.geb (pixZ w0 w1 w2 q) (S.getDepth q.1 q.2) = true →
                drawTrianglePixel w0 w1 w2 S q = S)))
    ∧ ((r.DrawTriangle t1).DrawTriangle t2).fb.GetPixel p.1 p.2
        = (r.DrawTriangle t1).fb.GetPixel p.1 p.2 := by
  constructor
  · intro w0 w1 w2 S q zq dq hz hdq
    constructor
    · rw [hz, hdq, fin_geb]
      simp
    · exact fun hg => drawTrianglePixel_id_of_geb w0 w1 w2 S q hg
  · have hp10 := hplane t1.V0 (by simp)
    have hp11 := hplane t1.V1 (by simp)
    have hp12 := hplane t1.V2 (by simp)
    have hp20 := hplane t2.V0 (by simp)
    have hp21 := hplane t2.V1 (by simp)
    have hp22 := hplane t2.V2 (by simp)
    have hplane1 := pixZ_plane a b c (projectVertex r t1.V0) (projectVertex r t1.V1)
      (projectVertex r t1.V2) p hp10 hp11 hp12 hd1
    have hplane2 := pixZ_plane a b c (projectVertex r t2.V0) (projectVertex r t2.V1)
      (projectVertex r t2.V2) p hp20 hp21 hp22 hd2
    have hzfin : (pixZ (projectVertex r t1.V0) (projectVertex r t1.V1)
        (projectVertex r t1.V2) p).isFin = true := by
      rw [hplane1]
      rfl
    have hgeb1 := drawTriangle_post_geb r t1 p hbh hcross hp10.1 hp10.2.1 hp11.1
      hp11.2.1 hp12.1 hp12.2.1 hmem hcov hzfin hlen
    obtain ⟨dv, dw, dh, _⟩ := drawTriangle_dims r t1
    have hpv0 : projectVertex (r.DrawTriangle t1) t2.V0 = projectVertex r t2.V0 :=
      projectVertex_congr _ _ _ dv dw dh
    have hpv1 : projectVertex (r.DrawTriangle t1) t2.V1 = projectVertex r t2.V1 :=
      projectVertex_congr _ _ _ dv dw dh
    have hpv2 : projectVertex (r.DrawTriangle t1) t2.V2 = projectVertex r t2.V2 :=
      projectVertex_congr _ _ _ dv dw dh
    have hg2 : F.geb (pixZ (projectVertex r t2.V0) (projectVertex r t2.V1)
        (projectVertex r t2.V2) p) ((r.DrawTriangle t1).getDepth p.1 p.2) = true := by
      rw [hplane2, ← hplane1]
      exact hgeb1
    set r1 := r.DrawTriangle t1 with hr1
    show (r1.DrawTriangle t2).fb.GetPixel p.1 p.2 = r1.fb.GetPixel p.1 p.2
    unfold RState.DrawTriangle
    dsimp only
    rw [hpv0, hpv1, hpv2]
    split
    · rfl
    split
    · rfl
    exact (foldl_pix_keep (projectVertex r t2.V0) (projectVertex r t2.V1)
      (projectVertex r t2.V2) p _ r1 hg2).2

/-- First triangle of the C7 witness: red, world plane z = 0 (projected to
the screen plane Z = 0 under the identity view-projection). -/
def triT1 : Triangle :=
  ⟨⟨⟨fr (-1) 2, fr 1 2, F.fin 0⟩, zeroV3, zeroV2, RGB 255 0 0⟩,
   ⟨⟨fr 1 2, fr 1 2, F.fin 0⟩, zeroV3, zeroV2, RGB 255 0 0⟩,
   ⟨⟨F.fin 0, fr (-1) 2, F.fin 0⟩, zeroV3, zeroV2, RGB 255 0 0⟩⟩

/-- Second triangle of the C7 witness: the same geometry drawn in blue. -/
def triT2 : Triangle :=
  ⟨⟨⟨fr (-1) 2, fr 1 2, F.fin 0⟩, zeroV3, zeroV2, RGB 0 0 255⟩,
   ⟨⟨fr 1 2, fr 1 2, F.fin 0⟩, zeroV3, zeroV2, RGB 0 0 255⟩,
   ⟨⟨F.fin 0, fr (-1) 2, F.fin 0⟩, zeroV3, zeroV2, RGB 0 0 255⟩⟩

/-- Witness for C7: concrete coplanar red/blue triangles over the cleared
4x4 state; the shared pixel (2,1) keeps the color T1 wrote. -/
theorem C7_depth_test_witness :
    baseState4.zbuffer.length = baseState4.Width * baseState4.Height
    ∧ (∀ v ∈ [triT1.V0, triT1.V1, triT1.V2, triT2.V0, triT2.V1, triT2.V2],
        onScreenPlane 0 0 0 (projectVertex baseState4 v))
    ∧ pixOutside (projectVertex baseState4 triT1.V0) (projectVertex baseState4 triT1.V1)
        (projectVertex baseState4 triT1.V2) (2, 1) = false
    ∧ ((baseState4.DrawTriangle triT1).DrawTriangle triT2).fb.GetPixel 2 1
        = (baseState4.DrawTriangle triT1).fb.GetPixel 2 1 :=
  ⟨by decide,
   by
     intro v hv
     unfold onScreenPlane
     fin_cases hv <;> exact ⟨by decide, by decide, by decide⟩,
   by decide,
   (C7_depth_test_first_triangle_wins baseState4 triT1 triT2 0 0 0 (2, 1)
     (by decide)
     (by
       intro v hv
       unfold onScreenPlane
       fin_cases hv <;> exact ⟨by decide, by decide, by decide⟩)
     (by decide) (by decide) (by decide) (by decide)
     (by decide) (by decide)).2⟩
